import Mathlib

/-!
Verification of the gym-tracker E2E test-orchestration subsystem.

JavaScript strings are embedded as lists of characters (`Str`); machine
wall-clock durations are natural numbers; every external effect (the browser
driver, the YAML parser, the file system, the analyzing and fixing agents)
is passed in as an explicit functional oracle, so each embedded function is
the pure control flow of its source counterpart.
-/

namespace GymTracker

/-- JavaScript strings, embedded as lists of characters. -/
abbrev Str := List Char

/-- The apostrophe character, used in several source error messages. -/
def apos : Char := Char.ofNat 39

/-- First index at which `needle` occurs in `hay` (JS `String.indexOf`). -/
def subAt? (needle : Str) : Str → Option Nat
  | [] => if needle.isEmpty then some 0 else none
  | c :: t =>
    if needle.isPrefixOf (c :: t) then some 0
    else (subAt? needle t).map (· + 1)

/-- JS `hay.includes(needle)`. -/
def containsSub (hay needle : Str) : Bool := (subAt? needle hay).isSome

/-- The suffix of `hay` after the first occurrence of `needle`. -/
def afterSub? (needle hay : Str) : Option Str :=
  (subAt? needle hay).map (fun i => hay.drop (i + needle.length))

/-- The portion of `hay` before the first occurrence of `needle`. -/
def beforeSub? (needle hay : Str) : Option Str :=
  (subAt? needle hay).map (fun i => hay.take i)

/-- Lower-casing, used to embed case-insensitive (`/i`) regex matching. -/
def lowerStr (s : Str) : Str := s.map Char.toLower

/-- Case-insensitive substring test (a `/i` regex with a literal body). -/
def containsSubCI (hay needle : Str) : Bool :=
  containsSub (lowerStr hay) (lowerStr needle)

/-- Case-insensitive version of `afterSub?`: the suffix of `hay` (original
case) after the first case-insensitive occurrence of `needle`. -/
def afterSubCI? (needle hay : Str) : Option Str :=
  (subAt? (lowerStr needle) (lowerStr hay)).map (fun i => hay.drop (i + needle.length))

/-- JS `s.replace(needle, repl)`: replaces the first occurrence only. -/
def replaceFirst (s needle repl : Str) : Str :=
  match subAt? needle s with
  | none => s
  | some i => s.take i ++ repl ++ s.drop (i + needle.length)

-- ======================================================================
-- Core result types (e2e/lib/types.ts)
-- ======================================================================

/-- `StepResult.status` in `e2e/lib/types.ts`. -/
inductive StepStatus | passed | failed | skipped
deriving DecidableEq

/-- `TestResult.status` in `e2e/lib/types.ts`. -/
inductive TRStatus | passed | failed
deriving DecidableEq

/-- `StepResult` of `e2e/lib/types.ts`. -/
structure StepResult where
  id : Str
  action : Str
  target : Str
  status : StepStatus
  duration : Nat
  error : Option Str := none
  screenshot : Option Str := none
  actualValue : Option Str := none
  expectedValue : Option Str := none
deriving DecidableEq

/-- `TestResult` of `e2e/lib/types.ts`. -/
structure TestResult where
  scenario : Str
  scenarioFile : Str
  status : TRStatus
  duration : Nat
  steps : List StepResult
  screenshots : List Str
  consoleErrors : List Str
  networkErrors : List Str
  timestamp : Str
deriving DecidableEq

/-- `ScenarioStep` of `e2e/lib/types.ts` (the action is kept as its string). -/
structure ScenarioStep where
  id : Str
  action : Str
  target : Str
  value : Option Str := none
deriving DecidableEq

-- ======================================================================
-- PlaywrightAdapter.runScenario (e2e/lib/playwrightAdapter.ts): the
-- step loop producing the ordered StepResult sequence.
-- ======================================================================

namespace PlaywrightAdapter

/-- The StepResult pushed for a step reached after an earlier failure. -/
def skippedResult (step : ScenarioStep) : StepResult :=
  { id := step.id, action := step.action, target := step.target,
    status := .skipped, duration := 0 }

/-- The step loop of `runScenario`: `exec` stands for `executeStep` (which
returns a StepResult whose status is passed or failed); `shouldSkip` is the
flag set once a step fails. -/
def runScenarioSteps (exec : ScenarioStep → StepResult) :
    List ScenarioStep → Bool → List StepResult
  | [], _ => []
  | step :: rest, shouldSkip =>
    if shouldSkip then
      skippedResult step :: runScenarioSteps exec rest shouldSkip
    else
      let stepResult := exec step
      stepResult ::
        runScenarioSteps exec rest
          (if stepResult.status = .failed then true else shouldSkip)

/-- Overall status of the run: failed once any executed step failed. -/
def overallStatus (results : List StepResult) : TRStatus :=
  if results.any (fun r => r.status = StepStatus.failed) then .failed else .passed

end PlaywrightAdapter

-- ======================================================================
-- TestExecutor.runScenario (e2e/src/executor.ts): the analogous loop.
-- Steps are abstract (their identity is a string); `executeStep` throws
-- on failure, embedded as an oracle returning an optional error message,
-- with a separate oracle for the measured duration of an executed step.
-- ======================================================================

namespace TestExecutor

/-- The StepResult shape of `e2e/src/types.ts`: the step itself, a status,
a duration and an optional error. -/
structure ExStepResult where
  step : Str
  status : StepStatus
  duration : Nat
  error : Option Str := none
deriving DecidableEq

/-- The step loop of `TestExecutor.runScenario`: `exec` returns
`some message` when `executeStep` throws, `dur` the elapsed time of an
executed step; `failed` is the flag set once a step fails. -/
def runScenarioSteps (exec : Str → Option Str) (dur : Str → Nat) :
    List Str → Bool → List ExStepResult
  | [], _ => []
  | st :: rest, failed =>
    if failed then
      { step := st, status := .skipped, duration := 0 } ::
        runScenarioSteps exec dur rest failed
    else
      match exec st with
      | none =>
        { step := st, status := .passed, duration := dur st } ::
          runScenarioSteps exec dur rest failed
      | some e =>
        { step := st, status := .failed, duration := dur st, error := some e } ::
          runScenarioSteps exec dur rest true

end TestExecutor

-- ======================================================================
-- e2e/src/parser.ts: scenario file parsing, directory loading and
-- element-selector resolution for the Appium executor.
-- ======================================================================

namespace Parser

/-- What the YAML parser returns for one scenario file before validation:
the `name` and `steps` fields may be absent. A JS falsy `name` (absent,
null or the empty string) is embedded as `none` or `some []`; absent
`steps` (or a non-array value) as `none`. -/
structure RawScenario where
  name : Option Str
  steps : Option (List Str)
deriving DecidableEq

/-- A validated `TestScenario` as `parseScenarioFile` returns it. -/
structure TestScenario where
  name : Str
  steps : List Str
deriving DecidableEq

/-- The error message thrown for a scenario file without a `name` field. -/
def missingNameMsg (filePath : Str) : Str :=
  "Scenario missing ".data ++ [apos] ++ "name".data ++ [apos] ++
    " field: ".data ++ filePath

/-- The error message thrown for a scenario file without a `steps` array. -/
def missingStepsMsg (filePath : Str) : Str :=
  "Scenario missing ".data ++ [apos] ++ "steps".data ++ [apos] ++
    " array: ".data ++ filePath

/-- `parseScenarioFile`: reads and YAML-parses the file (the `yamlOf`
oracle), then throws when `name` is falsy or `steps` is missing. -/
def parseScenarioFile (yamlOf : Str → RawScenario) (filePath : Str) :
    Except Str TestScenario :=
  let parsed := yamlOf filePath
  match parsed.name with
  | none => .error (missingNameMsg filePath)
  | some nm =>
    if nm = [] then .error (missingNameMsg filePath)
    else
      match parsed.steps with
      | none => .error (missingStepsMsg filePath)
      | some steps => .ok { name := nm, steps := steps }

/-- The loop body of `loadAllScenarios`: parse each globbed file in order,
keying the map by the file name with its `.yaml` suffix removed. An
exception from `parseScenarioFile` propagates and aborts the whole load.
(The directory-join of the path is elided: a file is identified with its
path.) -/
def loadAllAux (yamlOf : Str → RawScenario) :
    List Str → List (Str × TestScenario) → Except Str (List (Str × TestScenario))
  | [], scenarios => .ok scenarios
  | file :: rest, scenarios =>
    match parseScenarioFile yamlOf file with
    | .error e => .error e
    | .ok scenario =>
      loadAllAux yamlOf rest
        (scenarios ++ [(replaceFirst file ".yaml".data [], scenario)])

/-- `loadAllScenarios`: fold `parseScenarioFile` over the directory's files. -/
def loadAllScenarios (yamlOf : Str → RawScenario) (files : List Str) :
    Except Str (List (Str × TestScenario)) :=
  loadAllAux yamlOf files []

/-- The `{strategy, selector}` record `resolveElementSelector` returns. -/
structure ResolvedSelector where
  strategy : Str
  selector : Str
deriving DecidableEq

/-- The platform-specific text-fallback XPath built for a selector with
none of the three recognized marker forms. -/
def textFallbackSelector (element : Str) : Str :=
  "//*[contains(@text, \"".data ++ element ++
    "\") or contains(@label, \"".data ++ element ++
    "\") or contains(@value, \"".data ++ element ++
    "\") or contains(@name, \"".data ++ element ++ "\")]".data

/-- `resolveElementSelector`: a leading `@` means accessibility id, a
leading `#` means id, a leading `xpath:` means raw XPath, anything else
falls back to find-by-text. -/
def resolveElementSelector (element : Str) : ResolvedSelector :=
  if "@".data.isPrefixOf element then
    { strategy := "accessibility id".data, selector := element.drop 1 }
  else if "#".data.isPrefixOf element then
    { strategy := "id".data, selector := element.drop 1 }
  else if "xpath:".data.isPrefixOf element then
    { strategy := "xpath".data, selector := element.drop 6 }
  else
    { strategy := "xpath".data, selector := textFallbackSelector element }

/-- True exactly when `resolveElementSelector` takes its default branch,
the text-based fallback expansion. -/
def fallsThroughToText (element : Str) : Bool :=
  !("@".data.isPrefixOf element) && !("#".data.isPrefixOf element) &&
    !("xpath:".data.isPrefixOf element)

end Parser

-- ======================================================================
-- e2e/lib/scenarioParser.ts: validateScenario, and
-- e2e/agents/testRunner.ts: runTestRunner with createFailedResult.
-- ======================================================================

/-- `Scenario` of `e2e/lib/types.ts`. -/
structure Scenario where
  name : Str
  description : Str
  preconditions : List Str
  steps : List ScenarioStep
  postconditions : List Str
  tags : List Str
deriving DecidableEq

namespace ScenarioParser

/-- The per-step part of `validateScenario`: walks the steps carrying the
set of step ids seen so far and the accumulated error strings. -/
def validateSteps : List ScenarioStep → List Str → List Str → List Str
  | [], _, errors => errors
  | step :: rest, stepIds, errors =>
    let idState :=
      if step.id = [] then (stepIds, errors ++ ["Step is missing an id".data])
      else if stepIds.contains step.id then
        (stepIds, errors ++ ["Duplicate step id: ".data ++ step.id])
      else (stepIds ++ [step.id], errors)
    let stepIds := idState.1
    let errors := idState.2
    let errors :=
      if step.target = [] ∧ step.action ≠ "wait".data ∧
          step.action ≠ "screenshot".data then
        errors ++ ["Step \"".data ++ step.id ++ "\" is missing a target".data]
      else errors
    let errors :=
      if step.action = "fill".data ∧ (step.value = none ∨ step.value = some []) then
        errors ++
          ["Step \"".data ++ step.id ++ "\" has action \"fill\" but no value".data]
      else errors
    validateSteps rest stepIds errors

/-- `validateScenario`: non-throwing semantic checks returning the list of
validation error strings. -/
def validateScenario (scenario : Scenario) : List Str :=
  let errors := if scenario.name = [] then ["Scenario must have a name".data] else []
  let errors :=
    if scenario.steps = [] then
      errors ++ ["Scenario must have at least one step".data]
    else errors
  validateSteps scenario.steps [] errors

end ScenarioParser

namespace TestRunner

/-- `createFailedResult` of `e2e/agents/testRunner.ts`: the synthetic
TestResult for a scenario that could not be parsed, validated or run
(`now` stands for `new Date().toISOString()`). -/
def createFailedResult (scenarioFile error now : Str) : TestResult :=
  { scenario := scenarioFile, scenarioFile := scenarioFile, status := .failed,
    duration := 0, steps := [], screenshots := [], consoleErrors := [error],
    networkErrors := [], timestamp := now }

/-- The aggregated message built from non-empty validation errors. -/
def validationMessage (validationErrors : List Str) : Str :=
  "Validation errors:\n".data ++
    List.intercalate "\n".data (validationErrors.map (fun e => "  - ".data ++ e))

/-- What `runTestRunner` returns. -/
structure TestRunnerOutput where
  success : Bool
  result : TestResult
  error : Option Str := none
deriving DecidableEq

/-- `runTestRunner`: parse the scenario file (`parseOutcome` is the
outcome of `parseScenarioFile`, which may throw), validate it, then run
it through the Playwright adapter (`runAdapter`, whose `.error` case is
an execution exception caught by the try block). Each failure path
returns `createFailedResult` instead of throwing. -/
def runTestRunner (parseOutcome : Except Str Scenario)
    (runAdapter : Scenario → Except Str TestResult)
    (scenarioFile now : Str) : TestRunnerOutput :=
  match parseOutcome with
  | .error e =>
    { success := false, result := createFailedResult scenarioFile e now,
      error := some e }
  | .ok scenario =>
    let validationErrors := ScenarioParser.validateScenario scenario
    if validationErrors ≠ [] then
      let e := validationMessage validationErrors
      { success := false, result := createFailedResult scenarioFile e now,
        error := some e }
    else
      match runAdapter scenario with
      | .ok result => { success := result.status = .passed, result := result }
      | .error e =>
        { success := false, result := createFailedResult scenarioFile e now,
          error := some e }

end TestRunner

-- ======================================================================
-- e2e/agents/analyzer.ts: failure classification (analyzeError) and the
-- Analysis record. Each regex of FAILURE_PATTERNS is embedded as a
-- case-insensitive substring matcher with its capture groups; a greedy
-- `(.+)` capture is embedded as first-occurrence splitting, which agrees
-- with the regex on the single-line messages the adapter produces.
-- ======================================================================

/-- `FailureCategory` of `e2e/lib/types.ts`. -/
inductive FailureCategory | selector | timing | state | logic | network
deriving DecidableEq

/-- `Analysis.confidence` values. -/
inductive Confidence | high | medium | low
deriving DecidableEq

/-- `Analysis` of `e2e/lib/types.ts`. -/
structure Analysis where
  scenario : Str
  scenarioFile : Str
  failedStep : Str
  failedStepId : Str
  rootCause : Str
  category : FailureCategory
  affectedFiles : List Str
  suggestedFix : Str
  confidence : Confidence
  timestamp : Str
deriving DecidableEq

namespace Analyzer

/-- Case-insensitive version of `beforeSub?`. -/
def beforeSubCI? (needle hay : Str) : Option Str :=
  (subAt? (lowerStr needle) (lowerStr hay)).map (fun i => hay.take i)

/-- A non-empty capture: `(.+)` needs at least one character. -/
def capture? (rest : Option Str) : Option Str :=
  match rest with
  | some r => if r = [] then none else some r
  | none => none

/-- Pattern `Could not find (?:clickable|fillable) element: (.+)` (`/i`). -/
def couldNotFindCapture? (error : Str) : Option Str :=
  match capture? (afterSubCI? "Could not find clickable element: ".data error) with
  | some m => some m
  | none => capture? (afterSubCI? "Could not find fillable element: ".data error)

/-- Pattern `Expected "(.+)" to be visible` (`/i`). -/
def visibleCapture? (error : Str) : Option Str :=
  match afterSubCI? "Expected \"".data error with
  | none => none
  | some rest => capture? (beforeSubCI? "\" to be visible".data rest)

/-- The two captures of `Expected (URL|url) to (be|contain) "(.+)" but got
"(.+)"` or of `Expected input value to be "(.+)" but got "(.+)"` (`/i`),
given the suffix after the opening quote of the first capture. -/
def butGotCaptures? (rest : Str) : Option (Str × Str) :=
  match beforeSubCI? "\" but got \"".data rest with
  | none => none
  | some m1 =>
    match capture? (afterSubCI? "\" but got \"".data rest) with
    | none => none
    | some tail =>
      if m1 = [] then none
      else if tail.getLast? = some '"' then some (m1, tail.dropLast)
      else none

/-- The last two rows of `FAILURE_PATTERNS`: `Page Error: (.+)` and the
network-error regex `NetworkError|Failed to fetch|net::ERR`. -/
def matchPatternsNet (error : Str) : Option (FailureCategory × Str) :=
  match capture? (afterSubCI? "Page Error: ".data error) with
  | some m => some (.logic, "JavaScript error: ".data ++ m)
  | none =>
    if containsSubCI error "NetworkError".data ||
        containsSubCI error "Failed to fetch".data ||
        containsSubCI error "net::ERR".data then
      some (.network, "Network request failed".data)
    else none

/-- The input-value row of `FAILURE_PATTERNS` followed by the rows after
it: `Expected input value to be "(.+)" but got "(.+)"`. -/
def matchPatternsTail (error : Str) : Option (FailureCategory × Str) :=
  match afterSubCI? "Expected input value to be \"".data error with
  | some rest =>
    match butGotCaptures? rest with
    | some (m1, m2) =>
      some (.state,
        "State mismatch: expected \"".data ++ m1 ++ "\" but got \"".data ++
          m2 ++ "\"".data)
    | none => matchPatternsNet error
  | none => matchPatternsNet error

/-- `FAILURE_PATTERNS` applied in order to the failed step's error string:
the first matching row yields the category and its templated message. -/
def matchPatterns (error : Str) : Option (FailureCategory × Str) :=
  match couldNotFindCapture? error with
  | some m =>
    some (.selector,
      "Element \"".data ++ m ++
        "\" not found - selector may be incorrect or element not rendered".data)
  | none =>
  match visibleCapture? error with
  | some m =>
    some (.selector,
      "Element \"".data ++ m ++
        "\" not visible - may not be rendered or wrong selector".data)
  | none =>
  if containsSubCI error "Timeout".data then
    some (.timing,
      "Operation timed out - async operation may be slow or not completing".data)
  else
  match
    (match afterSubCI? "Expected URL to be \"".data error with
     | some r => some r
     | none => afterSubCI? "Expected URL to contain \"".data error) with
  | some rest =>
    match butGotCaptures? rest with
    | some (m1, m2) =>
      some (.state,
        "Navigation issue: expected \"".data ++ m1 ++ "\" but at \"".data ++
          m2 ++ "\"".data)
    | none => matchPatternsTail error
  | none => matchPatternsTail error

/-- `analyzeError`: console errors containing `Error` take precedence,
then any captured network error, then the ordered pattern table, then a
default selector classification with the raw error. -/
def analyzeError (failedStep : StepResult) (testResult : TestResult) :
    FailureCategory × Str :=
  let error := failedStep.error.getD []
  let consoleHit :=
    if testResult.consoleErrors = [] then none
    else testResult.consoleErrors.find? (fun e => containsSub e "Error".data)
  match consoleHit with
  | some jsError => (.logic, "JavaScript error: ".data ++ jsError.take 200)
  | none =>
    match testResult.networkErrors with
    | e :: _ => (.network, "Network failure: ".data ++ e)
    | [] =>
      match matchPatterns error with
      | some r => r
      | none =>
        (.selector,
          if error = [] then
            "Unknown error - step failed without specific error message".data
          else error)

end Analyzer

-- ======================================================================
-- e2e/lib/reportGenerator.ts: generateFinalReport, and the orchestrator
-- state it aggregates (e2e/lib/types.ts).
-- ======================================================================

/-- `Fix` of `e2e/lib/types.ts` (the file-modification list is elided:
nothing aggregated from a Fix depends on it beyond its presence). -/
structure Fix where
  analysis : Analysis
  typescriptValid : Bool
  timestamp : Str
deriving DecidableEq

/-- `OrchestratorStatus` of `e2e/lib/types.ts`. -/
inductive OrchestratorStatus | initializing | running | passed | failed | max_retries
deriving DecidableEq

/-- `OrchestratorState` of `e2e/lib/types.ts` (the scenario list, start
and end times are elided; the accumulators and counters are kept). -/
structure OrchestratorState where
  currentScenario : Option Str := none
  iteration : Nat
  maxIterations : Nat
  results : List TestResult
  analyses : List Analysis
  fixes : List Fix
  status : OrchestratorStatus
deriving DecidableEq

/-- `ScenarioReport` of `e2e/lib/types.ts` (rolled-up per scenario file). -/
structure ScenarioReport where
  name : Str
  file : Str
  status : TRStatus
  iterations : Nat
  results : List TestResult
  analyses : List Analysis
  fixes : List Fix
deriving DecidableEq

/-- `ReportSummary` of `e2e/lib/types.ts`. -/
structure ReportSummary where
  totalScenarios : Nat
  passed : Nat
  failed : Nat
  iterations : Nat
  fixesApplied : Nat
deriving DecidableEq

/-- `FinalReport` of `e2e/lib/types.ts` (timestamp and duration elided). -/
structure FinalReport where
  summary : ReportSummary
  scenarios : List ScenarioReport
  fixes : List Fix
deriving DecidableEq

namespace ReportGenerator

/-- The per-result update of a scenario report inside the grouping loop:
push the result, bump the iteration count, and mark the report passed
when this attempt passed. -/
def updateReport (report : ScenarioReport) (result : TestResult) : ScenarioReport :=
  { report with
    results := report.results ++ [result],
    iterations := report.iterations + 1,
    status := if result.status = .passed then .passed else report.status }

/-- One step of the grouping loop of `generateFinalReport`: insert a fresh
report (initially failed, with no attempts) when the scenario file is new,
then apply the per-result update to the file's report. The insertion-order
Map is embedded as an association list in insertion order. -/
def addResult (reports : List ScenarioReport) (result : TestResult) :
    List ScenarioReport :=
  if reports.any (fun rep => rep.file = result.scenarioFile) then
    reports.map
      (fun rep =>
        if rep.file = result.scenarioFile then updateReport rep result else rep)
  else
    reports ++
      [updateReport
        { name := result.scenario, file := result.scenarioFile, status := .failed,
          iterations := 0, results := [], analyses := [], fixes := [] }
        result]

/-- The grouping loop over all accumulated TestResults. -/
def groupResults (results : List TestResult) : List ScenarioReport :=
  results.foldl addResult []

/-- Attaching the accumulated analyses and fixes to the report of the
scenario file each belongs to (in accumulation order). -/
def attachRecords (state : OrchestratorState) (report : ScenarioReport) :
    ScenarioReport :=
  { report with
    analyses := state.analyses.filter (fun a => a.scenarioFile = report.file),
    fixes := state.fixes.filter (fun f => f.analysis.scenarioFile = report.file) }

/-- `generateFinalReport`: group results by scenario file, attach analyses
and fixes, and compute the summary counts (report file writes elided). -/
def generateFinalReport (state : OrchestratorState) : FinalReport :=
  let scenarios := (groupResults state.results).map (attachRecords state)
  { summary :=
      { totalScenarios := scenarios.length,
        passed := (scenarios.filter (fun s => s.status = .passed)).length,
        failed := (scenarios.filter (fun s => s.status = .failed)).length,
        iterations := state.iteration,
        fixesApplied := state.fixes.length },
    scenarios := scenarios,
    fixes := state.fixes }

end ReportGenerator

-- ======================================================================
-- e2e/agents/orchestrator.ts: runOrchestrator. The three dispatched
-- agents are oracles: `runTest i k` is the TestResult runTestRunner
-- returns for attempt k (1-based) of scenario i, `analyze` stands for
-- runAnalyzer and `applyFix` for runCodingAgent.
-- ======================================================================

namespace Orchestrator

/-- The configuration fields `runOrchestrator` reads:
`config.orchestrator.maxIterations`, `config.orchestrator.stopOnFirstFailure`
and `config.codingAgent.autoApply`. -/
structure OrchestratorConfig where
  maxIterations : Nat
  stopOnFirstFailure : Bool
  autoApply : Bool
deriving DecidableEq

/-- The three agents the orchestrator dispatches to. -/
structure Agents where
  runTest : Nat → Nat → TestResult
  analyze : TestResult → Analysis
  applyFix : Analysis → Fix

/-- The analyze-and-fix stage of a failed non-final attempt: push the
analysis, and push the coding agent's fix when auto-apply is configured. -/
def afterAnalysis (cfg : OrchestratorConfig) (ag : Agents)
    (st : OrchestratorState) (testResult : TestResult) : OrchestratorState :=
  let analysis := ag.analyze testResult
  let st := { st with analyses := st.analyses ++ [analysis] }
  if cfg.autoApply then { st with fixes := st.fixes ++ [ag.applyFix analysis] }
  else st

/-- The per-scenario while loop of `runOrchestrator`, with `fuel` the
number of loop-guard checks left (`maxIterations - iteration`, so that
the guard `iteration < maxIterations` fails exactly at fuel zero).
Returns the updated state, the `passed` flag and the final value of the
local `iteration` counter. -/
def scenarioLoop (cfg : OrchestratorConfig) (ag : Agents) (i : Nat) :
    Nat → Nat → OrchestratorState → OrchestratorState × Bool × Nat
  | 0, iteration, st => (st, false, iteration)
  | fuel + 1, iteration, st =>
    let iter := iteration + 1
    let st := { st with iteration := iter }
    let testResult := ag.runTest i iter
    let st := { st with results := st.results ++ [testResult] }
    if testResult.status = .passed then (st, true, iter)
    else if cfg.maxIterations ≤ iter then (st, false, iter)
    else
      let st := afterAnalysis cfg ag st testResult
      if cfg.stopOnFirstFailure then (st, false, iter)
      else scenarioLoop cfg ag i fuel iter st

/-- Processing one scenario: run the retry loop from iteration 0, then on
a non-passing outcome set the state status to `max_retries` when the
iteration bound was reached and `failed` otherwise. -/
def processScenario (cfg : OrchestratorConfig) (ag : Agents) (i : Nat)
    (name : Str) (st : OrchestratorState) : OrchestratorState × Bool :=
  let st := { st with currentScenario := some name }
  let out := scenarioLoop cfg ag i cfg.maxIterations 0 st
  let st := out.1
  let passed := out.2.1
  let iteration := out.2.2
  if passed then (st, true)
  else
    ({ st with
        status :=
          if cfg.maxIterations ≤ iteration then .max_retries else .failed },
      false)

/-- The scenario batch loop: process scenarios in order, breaking out of
the batch when a scenario did not pass and `stopOnFirstFailure` is set. -/
def processScenarios (cfg : OrchestratorConfig) (ag : Agents) :
    Nat → List Str → OrchestratorState → OrchestratorState
  | _, [], st => st
  | i, name :: rest, st =>
    let out := processScenario cfg ag i name st
    if !out.2 && cfg.stopOnFirstFailure then out.1
    else processScenarios cfg ag (i + 1) rest out.1

/-- The initial orchestrator state. -/
def initState (cfg : OrchestratorConfig) : OrchestratorState :=
  { iteration := 0, maxIterations := cfg.maxIterations, results := [],
    analyses := [], fixes := [], status := .initializing }

/-- The final status determination at the end of `runOrchestrator`:
`passed` exactly when there is at least one result and every accumulated
result passed, otherwise `failed` when the status is still `running`. -/
def finalizeState (st : OrchestratorState) : OrchestratorState :=
  let allPassed :=
    decide (st.results ≠ []) && st.results.all (fun r => r.status = .passed)
  if allPassed then { st with status := .passed }
  else if st.status = .running then { st with status := .failed }
  else st

/-- `runOrchestrator`: an empty scenario map fails immediately; otherwise
process the batch and determine the final status. Returns the final state
and the `success` flag of the output. -/
def runOrchestrator (cfg : OrchestratorConfig) (ag : Agents)
    (scenarioNames : List Str) : OrchestratorState × Bool :=
  let st := initState cfg
  if scenarioNames = [] then ({ st with status := .failed }, false)
  else
    let st := { st with status := .running }
    let st := finalizeState (processScenarios cfg ag 0 scenarioNames st)
    (st, st.status = .passed)

end Orchestrator

-- ======================================================================
-- Concrete instances used to evaluate the embedded functions on the
-- inputs of the claim analyses below.
-- ======================================================================

/-- A bare TestResult for a given scenario file and status. -/
def mkResult (file : Str) (s : TRStatus) : TestResult :=
  { scenario := file, scenarioFile := file, status := s, duration := 0,
    steps := [], screenshots := [], consoleErrors := [], networkErrors := [],
    timestamp := [] }

/-- A minimal Analysis for a failed result (only the scenario file matters
to the orchestrator and report aggregation). -/
def mkAnalysis (tr : TestResult) : Analysis :=
  { scenario := tr.scenario, scenarioFile := tr.scenarioFile, failedStep := [],
    failedStepId := [], rootCause := [], category := .selector,
    affectedFiles := [], suggestedFix := [], confidence := .low, timestamp := [] }

/-- A minimal Fix wrapping an analysis. -/
def mkFix (a : Analysis) : Fix := { analysis := a, typescriptValid := true, timestamp := [] }

/-- Agents with a given test-runner oracle and the minimal analyzer/fixer. -/
def mkAgents (f : Nat → Nat → TestResult) : Orchestrator.Agents :=
  { runTest := f, analyze := mkAnalysis, applyFix := mkFix }

/-- C1: three steps, of which the second fails. -/
def c1steps : List ScenarioStep :=
  [{ id := "s1".data, action := "click".data, target := "a".data },
   { id := "s2".data, action := "click".data, target := "b".data },
   { id := "s3".data, action := "click".data, target := "c".data }]

/-- C1: an executeStep oracle failing exactly on step s2. -/
def c1exec (step : ScenarioStep) : StepResult :=
  if step.id = "s2".data then
    { id := step.id, action := step.action, target := step.target,
      status := .failed, duration := 7, error := some ("boom".data) }
  else
    { id := step.id, action := step.action, target := step.target,
      status := .passed, duration := 3 }

/-- C2: the single scenario fails its first attempt and passes its second. -/
def c2run : Nat → Nat → TestResult := fun _ k =>
  match k with
  | 1 => mkResult ("a.yaml".data) .failed
  | _ => mkResult ("a.yaml".data) .passed

/-- C2: two iterations allowed, no stop-on-first-failure, no auto-apply. -/
def c2cfg : Orchestrator.OrchestratorConfig :=
  { maxIterations := 2, stopOnFirstFailure := false, autoApply := false }

/-- C2: the agents of the counterexample run. -/
def c2agents : Orchestrator.Agents := mkAgents c2run

/-- C2: the state in which the batch loop starts. -/
def c2start : OrchestratorState :=
  { Orchestrator.initState c2cfg with status := .running }

/-- C3: every attempt of every scenario fails. -/
def c3run : Nat → Nat → TestResult := fun _ _ => mkResult ("a.yaml".data) .failed

/-- C3: two iterations allowed, sequential processing. -/
def c3cfg : Orchestrator.OrchestratorConfig :=
  { maxIterations := 2, stopOnFirstFailure := false, autoApply := false }

/-- C3: the agents of the witness run. -/
def c3agents : Orchestrator.Agents := mkAgents c3run

/-- C5: scenario 0 fails its first attempt and would pass its second;
scenario 1 would pass at once. -/
def c5run : Nat → Nat → TestResult := fun i k =>
  match i, k with
  | 0, 1 => mkResult ("a.yaml".data) .failed
  | _, _ => mkResult ("b.yaml".data) .passed

/-- C5: three iterations allowed with stopOnFirstFailure set. -/
def c5cfg : Orchestrator.OrchestratorConfig :=
  { maxIterations := 3, stopOnFirstFailure := true, autoApply := true }

/-- C5: the agents of the counterexample run. -/
def c5agents : Orchestrator.Agents := mkAgents c5run

/-- C6: a failed step whose error message matches the element-not-found
pattern. -/
def c6step : StepResult :=
  { id := "s1".data, action := "click".data, target := "#add-btn".data,
    status := .failed, duration := 5,
    error := some ("Could not find clickable element: #add-btn".data) }

/-- C6: a failed TestResult with a non-empty console-error buffer whose
single entry does not contain the substring `Error`. -/
def c6tr : TestResult :=
  { scenario := "a".data, scenarioFile := "a.yaml".data, status := .failed,
    duration := 9, steps := [c6step], screenshots := [],
    consoleErrors := ["oops".data], networkErrors := [], timestamp := [] }

/-- C6: the same failed result with a console error that does contain
`Error`. -/
def c6logTr : TestResult :=
  { c6tr with consoleErrors := ["TypeError: x is undefined".data] }

/-- C4: a YAML oracle with one well-formed file and one file missing the
name field. -/
def c4yaml : Str → Parser.RawScenario := fun f =>
  if f = "good.yaml".data then
    { name := some ("Good".data), steps := some ["s1".data] }
  else { name := none, steps := some [] }

/-- C9: scenario 0 needs two attempts (fail then pass), scenario 1 passes
at once; auto-apply is on, so the one analyzed failure yields one fix. -/
def c9run : Nat → Nat → TestResult := fun i k =>
  match i, k with
  | 0, 1 => mkResult ("a.yaml".data) .failed
  | 0, _ => mkResult ("a.yaml".data) .passed
  | _, _ => mkResult ("b.yaml".data) .passed

/-- C9: five iterations allowed, sequential, auto-apply on. -/
def c9cfg : Orchestrator.OrchestratorConfig :=
  { maxIterations := 5, stopOnFirstFailure := false, autoApply := true }

/-- C9: the agents of the counterexample run. -/
def c9agents : Orchestrator.Agents := mkAgents c9run

/-- C10: an adapter oracle that would run the scenario successfully. -/
def c10adapter : Scenario → Except Str TestResult :=
  fun _ => .ok (mkResult ("x.yaml".data) .passed)

/-- C10: a structurally parsed scenario that fails validation (no name,
no steps). -/
def c10badScenario : Scenario :=
  { name := [], description := [], preconditions := [], steps := [],
    postconditions := [], tags := [] }

-- ======================================================================
-- Theorems.
-- ======================================================================

/-- Claim C7: for every string s, selector resolution maps `@`+s to the
accessibility-id strategy with value s, `#`+s to the id strategy with
value s, and `xpath:`+x to the xpath strategy with x verbatim, and none
of the three marker forms falls through to the text-based fallback. -/
theorem C7_selector_marker_forms (s : Str) :
    Parser.resolveElementSelector ("@".data ++ s) =
      { strategy := "accessibility id".data, selector := s } ∧
    Parser.resolveElementSelector ("#".data ++ s) =
      { strategy := "id".data, selector := s } ∧
    Parser.resolveElementSelector ("xpath:".data ++ s) =
      { strategy := "xpath".data, selector := s } ∧
    Parser.fallsThroughToText ("@".data ++ s) = false ∧
    Parser.fallsThroughToText ("#".data ++ s) = false ∧
    Parser.fallsThroughToText ("xpath:".data ++ s) = false := by
  refine ⟨?_, ?_, ?_, ?_, ?_, ?_⟩ <;>
    simp [Parser.resolveElementSelector, Parser.fallsThroughToText,
      List.isPrefixOf]

/-- Helper for C4: the load loop surfaces the error of the first failing
file once every file before it parses. -/
theorem loadAllAux_first_error (yamlOf : Str → Parser.RawScenario)
    (f e : Str) (post : List Str)
    (hf : Parser.parseScenarioFile yamlOf f = .error e) :
    ∀ (pre : List Str) (acc : List (Str × Parser.TestScenario)),
      (∀ g ∈ pre, ∃ sc, Parser.parseScenarioFile yamlOf g = .ok sc) →
      Parser.loadAllAux yamlOf (pre ++ f :: post) acc = .error e := by
  intro pre
  induction pre with
  | nil => intro acc _; simp [Parser.loadAllAux, hf]
  | cons g gs ih =>
    intro acc hpre
    obtain ⟨sc, hsc⟩ := hpre g (by simp)
    simpa [Parser.loadAllAux, hsc] using
      ih _ (fun x hx => hpre x (by simp [hx]))

/-- Claim C4, counterexample: a directory holding one well-formed file and
one file missing the name field. The well-formed file parses on its own,
yet `loadAllScenarios` returns no mapping at all: the malformed file's
exception aborts the whole load, contradicting the claim that every
well-formed file is still loaded. -/
theorem C4_counterexample :
    Parser.parseScenarioFile c4yaml ("good.yaml".data) =
      .ok { name := "Good".data, steps := ["s1".data] } ∧
    Parser.loadAllScenarios c4yaml ["good.yaml".data, "bad.yaml".data] =
      .error (Parser.missingNameMsg ("bad.yaml".data)) :=
  ⟨rfl, rfl⟩

/-- Claim C4, amended: if every file before some file f parses and f fails
to parse, `loadAllScenarios` aborts the whole load with the error of f
(whose message names f); no mapping is returned, so the well-formed files
are not loaded. -/
theorem C4_one_bad_file_aborts_load (yamlOf : Str → Parser.RawScenario)
    (pre post : List Str) (f e : Str)
    (hpre : ∀ g ∈ pre, ∃ sc, Parser.parseScenarioFile yamlOf g = .ok sc)
    (hf : Parser.parseScenarioFile yamlOf f = .error e) :
    Parser.loadAllScenarios yamlOf (pre ++ f :: post) = .error e :=
  loadAllAux_first_error yamlOf f e post hf pre [] hpre

/-- Witness for C4's amended theorem at the concrete two-file directory. -/
theorem C4_one_bad_file_aborts_load_witness :
    Parser.loadAllScenarios c4yaml (["good.yaml".data] ++ "bad.yaml".data :: []) =
      .error (Parser.missingNameMsg ("bad.yaml".data)) :=
  C4_one_bad_file_aborts_load c4yaml ["good.yaml".data] [] ("bad.yaml".data)
    (Parser.missingNameMsg ("bad.yaml".data))
    (by intro g hg
        rw [List.mem_singleton] at hg
        subst hg
        exact ⟨{ name := "Good".data, steps := ["s1".data] }, rfl⟩)
    rfl

/-- Claim C6, counterexample: a failed result with a non-empty console
buffer whose only entry (`oops`) does not contain the substring `Error`,
while the failed step message matches the element-not-found pattern. The
code classifies it as `selector`, not `logic`, so a non-empty console
buffer alone does not take precedence. -/
theorem C6_counterexample :
    c6tr.consoleErrors ≠ [] ∧
    (Analyzer.analyzeError c6step c6tr).1 = .selector ∧
    (Analyzer.analyzeError c6step c6tr).1 ≠ .logic := by
  refine ⟨by decide, by decide, by decide⟩

/-- Claim C6, amended: if some captured console error contains the
substring `Error`, the analysis is `logic` and quotes (the first 200
characters of) the first such console error, taking precedence over
pattern-matching the failed step's own error string. -/
theorem C6_console_error_precedence (failedStep : StepResult)
    (testResult : TestResult) (jsError : Str)
    (hfind : testResult.consoleErrors.find?
        (fun e => containsSub e ("Error".data)) = some jsError) :
    Analyzer.analyzeError failedStep testResult =
      (.logic, "JavaScript error: ".data ++ jsError.take 200) := by
  have hne : testResult.consoleErrors ≠ [] := by
    intro h
    rw [h] at hfind
    simp [List.find?] at hfind
  simp [Analyzer.analyzeError, hne, hfind]

/-- Witness for C6's amended theorem: a console buffer holding a thrown
TypeError while the step error still matches the element-not-found
pattern is classified as `logic`. -/
theorem C6_console_error_precedence_witness :
    Analyzer.analyzeError c6step c6logTr =
      (.logic,
        "JavaScript error: ".data ++ ("TypeError: x is undefined".data).take 200) :=
  C6_console_error_precedence c6step c6logTr ("TypeError: x is undefined".data)
    (by decide)

/-- Claim C10: when scenario parsing or validation fails, runTestRunner
returns success false with the synthetic failed result: status failed, no
steps, zero duration, the error message as the only console error, no
network errors — hence no failed StepResult at all. -/
theorem C10_parse_failure_synthetic_result
    (parseOutcome : Except Str Scenario)
    (runAdapter : Scenario → Except Str TestResult) (file now e : Str)
    (h : parseOutcome = .error e ∨
      ∃ sc, parseOutcome = .ok sc ∧ ScenarioParser.validateScenario sc ≠ [] ∧
        e = TestRunner.validationMessage (ScenarioParser.validateScenario sc)) :
    TestRunner.runTestRunner parseOutcome runAdapter file now =
      { success := false, result := TestRunner.createFailedResult file e now,
        error := some e } ∧
    (TestRunner.createFailedResult file e now).status = .failed ∧
    (TestRunner.createFailedResult file e now).steps = [] ∧
    (TestRunner.createFailedResult file e now).duration = 0 ∧
    (TestRunner.createFailedResult file e now).consoleErrors = [e] ∧
    (TestRunner.createFailedResult file e now).networkErrors = [] ∧
    ∀ s ∈ (TestRunner.createFailedResult file e now).steps, s.status ≠ .failed := by
  refine ⟨?_, rfl, rfl, rfl, rfl, rfl, ?_⟩
  · rcases h with h1 | ⟨sc, h1, hval, he⟩
    · subst h1
      rfl
    · subst h1
      subst he
      simp [TestRunner.runTestRunner, hval]
  · intro s hs
    simp [TestRunner.createFailedResult] at hs

/-- Witness for C10 at a concrete parse failure and a concrete validation
failure. -/
theorem C10_parse_failure_synthetic_result_witness :
    TestRunner.runTestRunner (.error ("boom".data)) c10adapter ("f.yaml".data) [] =
      { success := false,
        result := TestRunner.createFailedResult ("f.yaml".data) ("boom".data) [],
        error := some ("boom".data) } ∧
    TestRunner.runTestRunner (.ok c10badScenario) c10adapter ("f.yaml".data) [] =
      { success := false,
        result := TestRunner.createFailedResult ("f.yaml".data)
          (TestRunner.validationMessage
            (ScenarioParser.validateScenario c10badScenario)) [],
        error := some (TestRunner.validationMessage
          (ScenarioParser.validateScenario c10badScenario)) } :=
  ⟨(C10_parse_failure_synthetic_result (.error ("boom".data)) c10adapter
      ("f.yaml".data) [] ("boom".data) (Or.inl rfl)).1,
   (C10_parse_failure_synthetic_result (.ok c10badScenario) c10adapter
      ("f.yaml".data) []
      (TestRunner.validationMessage (ScenarioParser.validateScenario c10badScenario))
      (Or.inr ⟨c10badScenario, rfl, by decide, rfl⟩)).1⟩

/-- Helper for C1: with the skip flag already set, the Playwright loop
only emits skipped results. -/
theorem pw_runSteps_skip_all (exec : ScenarioStep → StepResult)
    (steps : List ScenarioStep) :
    PlaywrightAdapter.runScenarioSteps exec steps true =
      steps.map PlaywrightAdapter.skippedResult := by
  induction steps with
  | nil => rfl
  | cons s rest ih => simp [PlaywrightAdapter.runScenarioSteps, ih]

/-- Helper for C1: every entry produced under a set skip flag has status
skipped and zero duration. -/
theorem pw_skip_all_entry (exec : ScenarioStep → StepResult)
    (steps : List ScenarioStep) (r : StepResult)
    (hr : r ∈ PlaywrightAdapter.runScenarioSteps exec steps true) :
    r.status = .skipped ∧ r.duration = 0 := by
  rw [pw_runSteps_skip_all] at hr
  obtain ⟨x, _, rfl⟩ := List.mem_map.mp hr
  exact ⟨rfl, rfl⟩

/-- Helper for C1: the Playwright loop on a clear flag runs the head step
and threads the updated flag. -/
theorem pw_runSteps_cons_false (exec : ScenarioStep → StepResult)
    (s : ScenarioStep) (rest : List ScenarioStep) :
    PlaywrightAdapter.runScenarioSteps exec (s :: rest) false =
      exec s :: PlaywrightAdapter.runScenarioSteps exec rest
        (if (exec s).status = .failed then true else false) := by
  simp [PlaywrightAdapter.runScenarioSteps]

/-- Helper for C1, generalized over the incoming skip flag: in the
Playwright loop's output, every entry after a failed entry is skipped
with zero duration. -/
theorem pw_runSteps_after_failure (exec : ScenarioStep → StepResult) :
    ∀ (steps : List ScenarioStep) (b : Bool) (i j : Nat) (ri rj : StepResult),
      i < j →
      (PlaywrightAdapter.runScenarioSteps exec steps b)[i]? = some ri →
      ri.status = .failed →
      (PlaywrightAdapter.runScenarioSteps exec steps b)[j]? = some rj →
      rj.status = .skipped ∧ rj.duration = 0 := by
  intro steps
  induction steps with
  | nil =>
    intro b i j ri rj _ h1
    simp [PlaywrightAdapter.runScenarioSteps] at h1
  | cons s rest ih =>
    intro b i j ri rj hij h1 hfail h2
    cases b with
    | true =>
      exact pw_skip_all_entry exec (s :: rest) rj
        (List.getElem?_mem h2)
    | false =>
      rw [pw_runSteps_cons_false] at h1 h2
      cases i with
      | zero =>
        rw [List.getElem?_cons_zero] at h1
        obtain rfl : exec s = ri := by simpa using h1
        obtain ⟨m, rfl⟩ : ∃ m, j = m + 1 := ⟨j - 1, by omega⟩
        rw [List.getElem?_cons_succ, if_pos hfail] at h2
        exact pw_skip_all_entry exec rest rj (List.getElem?_mem h2)
      | succ k =>
        obtain ⟨m, rfl⟩ : ∃ m, j = m + 1 := ⟨j - 1, by omega⟩
        rw [List.getElem?_cons_succ] at h1 h2
        exact ih _ k m ri rj (by omega) h1 hfail h2

/-- Helper for C1: with the failed flag already set, the executor loop
only emits skipped results. -/
theorem ex_runSteps_skip_all (exec : Str → Option Str) (dur : Str → Nat)
    (steps : List Str) :
    TestExecutor.runScenarioSteps exec dur steps true =
      steps.map (fun st => { step := st, status := .skipped, duration := 0 }) := by
  induction steps with
  | nil => rfl
  | cons s rest ih => simp [TestExecutor.runScenarioSteps, ih]

/-- Helper for C1: every executor entry produced under a set failed flag
has status skipped and zero duration. -/
theorem ex_skip_all_entry (exec : Str → Option Str) (dur : Str → Nat)
    (steps : List Str) (r : TestExecutor.ExStepResult)
    (hr : r ∈ TestExecutor.runScenarioSteps exec dur steps true) :
    r.status = .skipped ∧ r.duration = 0 := by
  rw [ex_runSteps_skip_all] at hr
  obtain ⟨x, _, rfl⟩ := List.mem_map.mp hr
  exact ⟨rfl, rfl⟩

/-- Helper for C1: the executor loop on a clear flag, head step passing. -/
theorem ex_runSteps_cons_false_none (exec : Str → Option Str) (dur : Str → Nat)
    (s : Str) (rest : List Str) (hes : exec s = none) :
    TestExecutor.runScenarioSteps exec dur (s :: rest) false =
      { step := s, status := .passed, duration := dur s } ::
        TestExecutor.runScenarioSteps exec dur rest false := by
  simp [TestExecutor.runScenarioSteps, hes]

/-- Helper for C1: the executor loop on a clear flag, head step throwing. -/
theorem ex_runSteps_cons_false_some (exec : Str → Option Str) (dur : Str → Nat)
    (s : Str) (rest : List Str) (e : Str) (hes : exec s = some e) :
    TestExecutor.runScenarioSteps exec dur (s :: rest) false =
      { step := s, status := .failed, duration := dur s, error := some e } ::
        TestExecutor.runScenarioSteps exec dur rest true := by
  simp [TestExecutor.runScenarioSteps, hes]

/-- Helper for C1, generalized over the incoming failed flag: in the
executor loop's output, every entry after a failed entry is skipped with
zero duration. -/
theorem ex_runSteps_after_failure (exec : Str → Option Str) (dur : Str → Nat) :
    ∀ (steps : List Str) (b : Bool) (i j : Nat) (ri rj : TestExecutor.ExStepResult),
      i < j →
      (TestExecutor.runScenarioSteps exec dur steps b)[i]? = some ri →
      ri.status = .failed →
      (TestExecutor.runScenarioSteps exec dur steps b)[j]? = some rj →
      rj.status = .skipped ∧ rj.duration = 0 := by
  intro steps
  induction steps with
  | nil =>
    intro b i j ri rj _ h1
    simp [TestExecutor.runScenarioSteps] at h1
  | cons s rest ih =>
    intro b i j ri rj hij h1 hfail h2
    cases b with
    | true =>
      exact ex_skip_all_entry exec dur (s :: rest) rj (List.getElem?_mem h2)
    | false =>
      cases hes : exec s with
      | none =>
        rw [ex_runSteps_cons_false_none exec dur s rest hes] at h1 h2
        cases i with
        | zero =>
          rw [List.getElem?_cons_zero] at h1
          obtain rfl : ({ step := s, status := .passed, duration := dur s } :
              TestExecutor.ExStepResult) = ri := by simpa using h1
          simp at hfail
        | succ k =>
          obtain ⟨m, rfl⟩ : ∃ m, j = m + 1 := ⟨j - 1, by omega⟩
          rw [List.getElem?_cons_succ] at h1 h2
          exact ih _ k m ri rj (by omega) h1 hfail h2
      | some e =>
        rw [ex_runSteps_cons_false_some exec dur s rest e hes] at h1 h2
        cases i with
        | zero =>
          obtain ⟨m, rfl⟩ : ∃ m, j = m + 1 := ⟨j - 1, by omega⟩
          rw [List.getElem?_cons_succ] at h2
          exact ex_skip_all_entry exec dur rest rj (List.getElem?_mem h2)
        | succ k =>
          obtain ⟨m, rfl⟩ : ∃ m, j = m + 1 := ⟨j - 1, by omega⟩
          rw [List.getElem?_cons_succ] at h1 h2
          have hall := ex_skip_all_entry exec dur rest ri (List.getElem?_mem h1)
          rw [hall.1] at hfail
          cases hfail

/-- Claim C1: in the ordered StepResult sequence a scenario run returns,
once some entry has status failed, every entry after it has status
skipped with duration 0 — in both the Playwright adapter's loop and the
Appium executor's loop (each entered with its skip flag clear, as in the
source). -/
theorem C1_no_step_after_failure :
    (∀ (exec : ScenarioStep → StepResult) (steps : List ScenarioStep)
      (i j : Nat) (ri rj : StepResult), i < j →
      (PlaywrightAdapter.runScenarioSteps exec steps false)[i]? = some ri →
      ri.status = .failed →
      (PlaywrightAdapter.runScenarioSteps exec steps false)[j]? = some rj →
      rj.status = .skipped ∧ rj.duration = 0) ∧
    (∀ (exec : Str → Option Str) (dur : Str → Nat) (steps : List Str)
      (i j : Nat) (ri rj : TestExecutor.ExStepResult), i < j →
      (TestExecutor.runScenarioSteps exec dur steps false)[i]? = some ri →
      ri.status = .failed →
      (TestExecutor.runScenarioSteps exec dur steps false)[j]? = some rj →
      rj.status = .skipped ∧ rj.duration = 0) :=
  ⟨fun exec steps => pw_runSteps_after_failure exec steps false,
   fun exec dur steps => ex_runSteps_after_failure exec dur steps false⟩

/-- Witness for C1 at a concrete three-step scenario whose second step
fails: the second entry is failed and the third entry is skipped with
zero duration. -/
theorem C1_no_step_after_failure_witness :
    ((PlaywrightAdapter.runScenarioSteps c1exec c1steps false)[1]?).map
        StepResult.status = some .failed ∧
    ((PlaywrightAdapter.runScenarioSteps c1exec c1steps false)[2]?).map
        (fun r => (r.status, r.duration)) = some (.skipped, 0) := by
  have h := C1_no_step_after_failure.1 c1exec c1steps 1 2
    { id := "s2".data, action := "click".data, target := "b".data,
      status := .failed, duration := 7, error := some ("boom".data) }
    (PlaywrightAdapter.skippedResult
      { id := "s3".data, action := "click".data, target := "c".data })
    (by omega) (by decide) rfl (by decide)
  refine ⟨by decide, ?_⟩
  have h2 : (PlaywrightAdapter.runScenarioSteps c1exec c1steps false)[2]? =
      some (PlaywrightAdapter.skippedResult
        { id := "s3".data, action := "click".data, target := "c".data }) := by
    decide
  rw [h2]
  simp [h.1, h.2]

/-- Helper for C8: the per-result update marks a report passed exactly
when the new attempt passed or the report was already passed. -/
theorem updateReport_status (rep : ScenarioReport) (r : TestResult) :
    ((ReportGenerator.updateReport rep r).status = .passed) ↔
      (r.status = .passed ∨ rep.status = .passed) := by
  by_cases hr : r.status = .passed <;> simp [ReportGenerator.updateReport, hr]

/-- Helper for C8: the per-result update never changes the report's file. -/
theorem updateReport_file (rep : ScenarioReport) (r : TestResult) :
    (ReportGenerator.updateReport rep r).file = rep.file := rfl

/-- Helper for C8: processing one more result preserves the grouping
invariant (every processed result has a report for its file, and a
report is passed exactly when some processed attempt for its file
passed). -/
theorem addResult_inv (acc : List ScenarioReport) (processed : List TestResult)
    (r : TestResult)
    (hcov : ∀ t ∈ processed, ∃ rep ∈ acc, rep.file = t.scenarioFile)
    (hstat : ∀ rep ∈ acc, (rep.status = .passed ↔
        ∃ t ∈ processed, t.scenarioFile = rep.file ∧ t.status = .passed)) :
    (∀ t ∈ processed ++ [r], ∃ rep ∈ ReportGenerator.addResult acc r,
        rep.file = t.scenarioFile) ∧
    (∀ rep ∈ ReportGenerator.addResult acc r, (rep.status = .passed ↔
        ∃ t ∈ processed ++ [r], t.scenarioFile = rep.file ∧ t.status = .passed)) := by
  by_cases hany : (acc.any (fun rep => rep.file = r.scenarioFile)) = true
  · obtain ⟨rep₀, hrep₀mem, hrep₀file⟩ :
        ∃ rep ∈ acc, rep.file = r.scenarioFile := by
      simpa using hany
    unfold ReportGenerator.addResult
    rw [if_pos hany]
    constructor
    · intro t ht
      rcases List.mem_append.mp ht with htp | htr
      · obtain ⟨rep, hmem, hfile⟩ := hcov t htp
        refine ⟨if rep.file = r.scenarioFile then
            ReportGenerator.updateReport rep r else rep,
          List.mem_map_of_mem _ hmem, ?_⟩
        by_cases hc : rep.file = r.scenarioFile
        · rw [if_pos hc, updateReport_file]
          exact hfile
        · rw [if_neg hc]
          exact hfile
      · rw [List.mem_singleton] at htr
        refine ⟨ReportGenerator.updateReport rep₀ r, ?_, ?_⟩
        · have hm := List.mem_map_of_mem
            (fun rep => if rep.file = r.scenarioFile then
              ReportGenerator.updateReport rep r else rep) hrep₀mem
          simpa [if_pos hrep₀file] using hm
        · rw [updateReport_file, htr]
          exact hrep₀file
    · intro rep' hrep'
      obtain ⟨rep, hmem, rfl⟩ := List.mem_map.mp hrep'
      by_cases hc : rep.file = r.scenarioFile
      · rw [if_pos hc, updateReport_status, updateReport_file]
        constructor
        · rintro (hr | hp)
          · exact ⟨r, List.mem_append.mpr (Or.inr (List.mem_singleton.mpr rfl)),
              hc.symm, hr⟩
          · obtain ⟨t, ht, htf, hts⟩ := (hstat rep hmem).mp hp
            exact ⟨t, List.mem_append.mpr (Or.inl ht), htf, hts⟩
        · rintro ⟨t, ht, htf, hts⟩
          rcases List.mem_append.mp ht with h | h
          · exact Or.inr ((hstat rep hmem).mpr ⟨t, h, htf, hts⟩)
          · rw [List.mem_singleton] at h
            subst h
            exact Or.inl hts
      · rw [if_neg hc]
        constructor
        · intro hp
          obtain ⟨t, ht, htf, hts⟩ := (hstat rep hmem).mp hp
          exact ⟨t, List.mem_append.mpr (Or.inl ht), htf, hts⟩
        · rintro ⟨t, ht, htf, hts⟩
          rcases List.mem_append.mp ht with h | h
          · exact (hstat rep hmem).mpr ⟨t, h, htf, hts⟩
          · rw [List.mem_singleton] at h
            subst h
            exact absurd htf.symm hc
  · have hnone : ∀ rep ∈ acc, rep.file ≠ r.scenarioFile := by
      intro rep hrep heq
      exact hany (List.any_eq_true.mpr ⟨rep, hrep, by simp [heq]⟩)
    unfold ReportGenerator.addResult
    rw [if_neg hany]
    constructor
    · intro t ht
      rcases List.mem_append.mp ht with htp | htr
      · obtain ⟨rep, hmem, hfile⟩ := hcov t htp
        exact ⟨rep, List.mem_append.mpr (Or.inl hmem), hfile⟩
      · rw [List.mem_singleton] at htr
        subst htr
        refine ⟨_, List.mem_append.mpr (Or.inr (List.mem_singleton.mpr rfl)), ?_⟩
        rw [updateReport_file]
    · intro rep' hrep'
      rcases List.mem_append.mp hrep' with hmem | hfresh
      · constructor
        · intro hp
          obtain ⟨t, ht, htf, hts⟩ := (hstat rep' hmem).mp hp
          exact ⟨t, List.mem_append.mpr (Or.inl ht), htf, hts⟩
        · rintro ⟨t, ht, htf, hts⟩
          rcases List.mem_append.mp ht with h | h
          · exact (hstat rep' hmem).mpr ⟨t, h, htf, hts⟩
          · rw [List.mem_singleton] at h
            subst h
            exact absurd htf.symm (hnone rep' hmem)
      · rw [List.mem_singleton] at hfresh
        subst hfresh
        rw [updateReport_status, updateReport_file]
        constructor
        · rintro (hr | hfs)
          · exact ⟨r, List.mem_append.mpr (Or.inr (List.mem_singleton.mpr rfl)),
              rfl, hr⟩
          · cases hfs
        · rintro ⟨t, ht, htf, hts⟩
          rcases List.mem_append.mp ht with h | h
          · obtain ⟨rep, hmem, hfile⟩ := hcov t h
            exact absurd (hfile.trans htf) (hnone rep hmem)
          · rw [List.mem_singleton] at h
            subst h
            exact Or.inl hts

/-- Helper for C8: the grouping invariant carried through the whole fold. -/
theorem groupResults_inv :
    ∀ (results : List TestResult) (acc : List ScenarioReport)
      (processed : List TestResult),
      (∀ t ∈ processed, ∃ rep ∈ acc, rep.file = t.scenarioFile) →
      (∀ rep ∈ acc, (rep.status = .passed ↔
          ∃ t ∈ processed, t.scenarioFile = rep.file ∧ t.status = .passed)) →
      (∀ t ∈ processed ++ results,
          ∃ rep ∈ results.foldl ReportGenerator.addResult acc,
            rep.file = t.scenarioFile) ∧
      (∀ rep ∈ results.foldl ReportGenerator.addResult acc,
          (rep.status = .passed ↔
            ∃ t ∈ processed ++ results, t.scenarioFile = rep.file ∧
              t.status = .passed)) := by
  intro results
  induction results with
  | nil =>
    intro acc processed h1 h2
    simpa using ⟨h1, h2⟩
  | cons r rest ih =>
    intro acc processed h1 h2
    have hstep := addResult_inv acc processed r h1 h2
    have hrec := ih (ReportGenerator.addResult acc r) (processed ++ [r])
      hstep.1 hstep.2
    simpa [List.append_assoc] using hrec

/-- Claim C8: generateFinalReport groups every accumulated TestResult
under a ScenarioReport for its scenario file, and a report's rolled-up
status is passed exactly when at least one attempt for that file passed
(independently of attempt order), else failed. -/
theorem C8_rollup_passed_iff_any_attempt_passed (state : OrchestratorState) :
    (∀ r ∈ state.results,
        ∃ rep ∈ (ReportGenerator.generateFinalReport state).scenarios,
          rep.file = r.scenarioFile) ∧
    (∀ rep ∈ (ReportGenerator.generateFinalReport state).scenarios,
        (rep.status = .passed ↔
          ∃ r ∈ state.results, r.scenarioFile = rep.file ∧
            r.status = .passed)) := by
  have hbase := groupResults_inv state.results [] [] (by simp) (by simp)
  constructor
  · intro r hr
    obtain ⟨rep, hmem, hfile⟩ := hbase.1 r (by simpa using hr)
    exact ⟨ReportGenerator.attachRecords state rep, List.mem_map_of_mem _ hmem,
      hfile⟩
  · intro rep' hrep'
    obtain ⟨rep, hmem, rfl⟩ := List.mem_map.mp hrep'
    have hiff := hbase.2 rep hmem
    simpa using hiff

-- ======================================================================
-- Lemmas on the orchestrator retry loop, shared by C2, C3, C5 and C9.
-- ======================================================================

/-- Helper: the analyze-and-fix stage touches only the analysis and fix
accumulators. -/
theorem afterAnalysis_fields (cfg : Orchestrator.OrchestratorConfig)
    (ag : Orchestrator.Agents) (st : OrchestratorState) (tr : TestResult) :
    (Orchestrator.afterAnalysis cfg ag st tr).results = st.results ∧
    (Orchestrator.afterAnalysis cfg ag st tr).status = st.status ∧
    (Orchestrator.afterAnalysis cfg ag st tr).iteration = st.iteration ∧
    (Orchestrator.afterAnalysis cfg ag st tr).maxIterations = st.maxIterations := by
  unfold Orchestrator.afterAnalysis
  split <;> exact ⟨rfl, rfl, rfl, rfl⟩

/-- Helper: the basic bookkeeping of the retry loop — the final iteration
counter lies between the start counter and start plus fuel, exactly one
result is appended per iteration performed, the status and maxIterations
fields are untouched, the state iteration field records the final counter
(unless no iteration ran), and results only grow. -/
theorem scenarioLoop_spec (cfg : Orchestrator.OrchestratorConfig)
    (ag : Orchestrator.Agents) (i : Nat) :
    ∀ (fuel it : Nat) (st : OrchestratorState),
      it ≤ (Orchestrator.scenarioLoop cfg ag i fuel it st).2.2 ∧
      (Orchestrator.scenarioLoop cfg ag i fuel it st).2.2 ≤ it + fuel ∧
      (Orchestrator.scenarioLoop cfg ag i fuel it st).1.results.length + it =
        st.results.length + (Orchestrator.scenarioLoop cfg ag i fuel it st).2.2 ∧
      (Orchestrator.scenarioLoop cfg ag i fuel it st).1.status = st.status ∧
      (Orchestrator.scenarioLoop cfg ag i fuel it st).1.iteration =
        (if (Orchestrator.scenarioLoop cfg ag i fuel it st).2.2 = it then
          st.iteration else (Orchestrator.scenarioLoop cfg ag i fuel it st).2.2) ∧
      (∃ l, (Orchestrator.scenarioLoop cfg ag i fuel it st).1.results =
        st.results ++ l) := by
  intro fuel
  induction fuel with
  | zero =>
    intro it st
    refine ⟨?_, ?_, ?_, ?_, ?_, ?_⟩ <;> simp [Orchestrator.scenarioLoop]
  | succ fuel ih =>
    intro it st
    simp only [Orchestrator.scenarioLoop]
    split
    · refine ⟨?_, ?_, ?_, ?_, ?_, ?_⟩ <;> simp <;> omega
    · split
      · refine ⟨?_, ?_, ?_, ?_, ?_, ?_⟩ <;> simp <;> omega
      · split
        · have hA := afterAnalysis_fields cfg ag
            { st with
                iteration := it + 1,
                results := st.results ++ [ag.runTest i (it + 1)] }
            (ag.runTest i (it + 1))
          refine ⟨?_, ?_, ?_, ?_, ?_, ?_⟩ <;>
            simp [hA.1, hA.2.1, hA.2.2.1] <;> omega
        · have hA := afterAnalysis_fields cfg ag
            { st with
                iteration := it + 1,
                results := st.results ++ [ag.runTest i (it + 1)] }
            (ag.runTest i (it + 1))
          have ihh := ih (it + 1)
            (Orchestrator.afterAnalysis cfg ag
              { st with
                  iteration := it + 1,
                  results := st.results ++ [ag.runTest i (it + 1)] }
              (ag.runTest i (it + 1)))
          obtain ⟨h1, h2, h3, h4, h5, l, hl⟩ := ihh
          have hres : (Orchestrator.afterAnalysis cfg ag
              { st with
                  iteration := it + 1,
                  results := st.results ++ [ag.runTest i (it + 1)] }
              (ag.runTest i (it + 1))).results =
              st.results ++ [ag.runTest i (it + 1)] := hA.1
          refine ⟨by omega, by omega, ?_, ?_, ?_, ?_⟩
          · rw [hres] at h3
            simp at h3
            omega
          · rw [h4, hA.2.1]
          · rw [h5]
            by_cases hc : (Orchestrator.scenarioLoop cfg ag i fuel (it + 1)
                (Orchestrator.afterAnalysis cfg ag
                  { st with
                      iteration := it + 1,
                      results := st.results ++ [ag.runTest i (it + 1)] }
                  (ag.runTest i (it + 1)))).2.2 = it + 1
            · rw [if_pos hc, hA.2.2.1, if_neg (by omega)]
              simp [hc]
            · rw [if_neg hc, if_neg (by omega)]
          · exact ⟨ag.runTest i (it + 1) :: l, by
              rw [hl, hres]
              simp⟩

/-- Helper: with stopOnFirstFailure clear, a loop that did not pass ran
out of fuel, so the bound was reached. -/
theorem scenarioLoop_not_passed_max (cfg : Orchestrator.OrchestratorConfig)
    (ag : Orchestrator.Agents) (i : Nat)
    (hstop : cfg.stopOnFirstFailure = false) :
    ∀ (fuel it : Nat) (st : OrchestratorState),
      cfg.maxIterations ≤ it + fuel →
      (Orchestrator.scenarioLoop cfg ag i fuel it st).2.1 = false →
      cfg.maxIterations ≤ (Orchestrator.scenarioLoop cfg ag i fuel it st).2.2 := by
  intro fuel
  induction fuel with
  | zero =>
    intro it st hb _
    simpa [Orchestrator.scenarioLoop] using hb
  | succ fuel ih =>
    intro it st hb hnp
    simp only [Orchestrator.scenarioLoop] at hnp ⊢
    by_cases h1 : (ag.runTest i (it + 1)).status = TRStatus.passed
    · rw [if_pos h1] at hnp
      simp at hnp
    · rw [if_neg h1] at hnp ⊢
      by_cases h2 : cfg.maxIterations ≤ it + 1
      · rw [if_pos h2] at hnp ⊢
        simpa using h2
      · rw [if_neg h2] at hnp ⊢
        rw [if_neg (by simp [hstop])] at hnp ⊢
        exact ih (it + 1) _ (by omega) hnp

/-- Helper: when every attempt in range fails, the loop does not pass. -/
theorem scenarioLoop_all_fail (cfg : Orchestrator.OrchestratorConfig)
    (ag : Orchestrator.Agents) (i : Nat) :
    ∀ (fuel it : Nat) (st : OrchestratorState),
      (∀ k, it < k → k ≤ it + fuel → (ag.runTest i k).status ≠ .passed) →
      (Orchestrator.scenarioLoop cfg ag i fuel it st).2.1 = false := by
  intro fuel
  induction fuel with
  | zero =>
    intro it st _
    simp [Orchestrator.scenarioLoop]
  | succ fuel ih =>
    intro it st hfail
    simp only [Orchestrator.scenarioLoop]
    rw [if_neg (hfail (it + 1) (by omega) (by omega))]
    by_cases h2 : cfg.maxIterations ≤ it + 1
    · rw [if_pos h2]
    · rw [if_neg h2]
      by_cases h3 : cfg.stopOnFirstFailure = true
      · rw [if_pos h3]
      · rw [if_neg h3]
        exact ih (it + 1) _ (fun k hk1 hk2 => hfail k (by omega) (by omega))

/-- Helper: with at least one unit of fuel, the first attempt's result is
appended to the state's results. -/
theorem scenarioLoop_first_mem (cfg : Orchestrator.OrchestratorConfig)
    (ag : Orchestrator.Agents) (i : Nat) (fuel it : Nat)
    (st : OrchestratorState) (hf : 1 ≤ fuel) :
    ag.runTest i (it + 1) ∈
      (Orchestrator.scenarioLoop cfg ag i fuel it st).1.results := by
  obtain ⟨f, rfl⟩ : ∃ f, fuel = f + 1 := ⟨fuel - 1, by omega⟩
  simp only [Orchestrator.scenarioLoop]
  split
  · simp
  · split
    · simp
    · split
      · have hA := afterAnalysis_fields cfg ag
          { st with
              iteration := it + 1,
              results := st.results ++ [ag.runTest i (it + 1)] }
          (ag.runTest i (it + 1))
        simp [hA.1]
      · have hA := afterAnalysis_fields cfg ag
          { st with
              iteration := it + 1,
              results := st.results ++ [ag.runTest i (it + 1)] }
          (ag.runTest i (it + 1))
        obtain ⟨-, -, -, -, -, l, hl⟩ := scenarioLoop_spec cfg ag i f (it + 1)
          (Orchestrator.afterAnalysis cfg ag
            { st with
                iteration := it + 1,
                results := st.results ++ [ag.runTest i (it + 1)] }
            (ag.runTest i (it + 1)))
        rw [hl, hA.1]
        simp

/-- Helper: bookkeeping of one scenario's processing — at most
maxIterations results are appended, a passing scenario leaves the status
untouched, the status afterwards is the incoming one or max_retries or
failed, results only grow, and (with a positive bound) the first
attempt's result is among the results. -/
theorem processScenario_spec (cfg : Orchestrator.OrchestratorConfig)
    (ag : Orchestrator.Agents) (i : Nat) (name : Str) (st : OrchestratorState) :
    (Orchestrator.processScenario cfg ag i name st).1.results.length ≤
      st.results.length + cfg.maxIterations ∧
    ((Orchestrator.processScenario cfg ag i name st).2 = true →
      (Orchestrator.processScenario cfg ag i name st).1.status = st.status) ∧
    ((Orchestrator.processScenario cfg ag i name st).1.status = st.status ∨
      (Orchestrator.processScenario cfg ag i name st).1.status = .max_retries ∨
      (Orchestrator.processScenario cfg ag i name st).1.status = .failed) ∧
    (∃ l, (Orchestrator.processScenario cfg ag i name st).1.results =
      st.results ++ l) ∧
    (1 ≤ cfg.maxIterations →
      ag.runTest i 1 ∈ (Orchestrator.processScenario cfg ag i name st).1.results) := by
  obtain ⟨hle1, hle2, hlen, hstat, hiter, l, hl⟩ :=
    scenarioLoop_spec cfg ag i cfg.maxIterations 0
      { st with currentScenario := some name }
  rw [show ({ st with currentScenario := some name } :
      OrchestratorState).results = st.results from rfl] at hlen hl
  rw [show ({ st with currentScenario := some name } :
      OrchestratorState).status = st.status from rfl] at hstat
  have hmem := fun hf => scenarioLoop_first_mem cfg ag i cfg.maxIterations 0
    { st with currentScenario := some name } hf
  simp only [Orchestrator.processScenario]
  split
  · refine ⟨?_, fun _ => hstat, Or.inl hstat, ⟨l, hl⟩, fun hf => ?_⟩
    · dsimp only
      omega
    · simpa using hmem hf
  · refine ⟨?_, by simp, ?_, ⟨l, hl⟩, fun hf => ?_⟩
    · dsimp only
      omega
    · by_cases hb : cfg.maxIterations ≤
          (Orchestrator.scenarioLoop cfg ag i cfg.maxIterations 0
            { st with currentScenario := some name }).2.2
      · rw [if_pos hb]
        exact Or.inr (Or.inl rfl)
      · rw [if_neg hb]
        exact Or.inr (Or.inr rfl)
    · simpa using hmem hf

/-- Helper: a scenario whose configured attempts all fail and that
consumed its full bound ends not passed with status max_retries. -/
theorem processScenario_exhaust (cfg : Orchestrator.OrchestratorConfig)
    (ag : Orchestrator.Agents) (i : Nat) (name : Str) (st : OrchestratorState)
    (hfail : ∀ k, 1 ≤ k → k ≤ cfg.maxIterations →
      (ag.runTest i k).status ≠ .passed)
    (hlen : (Orchestrator.processScenario cfg ag i name st).1.results.length =
      st.results.length + cfg.maxIterations) :
    (Orchestrator.processScenario cfg ag i name st).1.status = .max_retries ∧
    (Orchestrator.processScenario cfg ag i name st).2 = false := by
  have hnp := scenarioLoop_all_fail cfg ag i cfg.maxIterations 0
    { st with currentScenario := some name }
    (fun k h1 h2 => hfail k h1 (by omega))
  obtain ⟨hle1, hle2, hlenspec, hstat, hiter, l, hl⟩ :=
    scenarioLoop_spec cfg ag i cfg.maxIterations 0
      { st with currentScenario := some name }
  rw [show ({ st with currentScenario := some name } :
      OrchestratorState).results = st.results from rfl] at hlenspec
  simp only [Orchestrator.processScenario] at hlen ⊢
  rw [if_neg (by simp [hnp])] at hlen ⊢
  dsimp only at hlen
  have hfin : (Orchestrator.scenarioLoop cfg ag i cfg.maxIterations 0
      { st with currentScenario := some name }).2.2 = cfg.maxIterations := by
    omega
  rw [if_pos (by omega)]
  exact ⟨rfl, rfl⟩

/-- Helper: with stopOnFirstFailure clear, a scenario that did not pass
always exhausts its bound, so its terminal status is max_retries. -/
theorem processScenario_not_passed_mr (cfg : Orchestrator.OrchestratorConfig)
    (ag : Orchestrator.Agents) (i : Nat) (name : Str) (st : OrchestratorState)
    (hstop : cfg.stopOnFirstFailure = false)
    (hnp : (Orchestrator.processScenario cfg ag i name st).2 = false) :
    (Orchestrator.processScenario cfg ag i name st).1.status = .max_retries := by
  simp only [Orchestrator.processScenario] at hnp ⊢
  by_cases hp : (Orchestrator.scenarioLoop cfg ag i cfg.maxIterations 0
      { st with currentScenario := some name }).2.1 = true
  · rw [if_pos hp] at hnp
    simp at hnp
  · rw [if_neg hp] at hnp ⊢
    have hmax := scenarioLoop_not_passed_max cfg ag i hstop cfg.maxIterations 0
      { st with currentScenario := some name } (by omega)
      (by simpa using hp)
    rw [if_pos hmax]

/-- Helper: batch bookkeeping — the status after the batch is the
incoming one, max_retries or failed, and results only grow. -/
theorem processScenarios_spec (cfg : Orchestrator.OrchestratorConfig)
    (ag : Orchestrator.Agents) :
    ∀ (names : List Str) (idx : Nat) (st : OrchestratorState),
      ((Orchestrator.processScenarios cfg ag idx names st).status = st.status ∨
        (Orchestrator.processScenarios cfg ag idx names st).status = .max_retries ∨
        (Orchestrator.processScenarios cfg ag idx names st).status = .failed) ∧
      (∃ l, (Orchestrator.processScenarios cfg ag idx names st).results =
        st.results ++ l) := by
  intro names
  induction names with
  | nil =>
    intro idx st
    exact ⟨Or.inl rfl, ⟨[], by simp [Orchestrator.processScenarios]⟩⟩
  | cons name rest ih =>
    intro idx st
    have hps := processScenario_spec cfg ag idx name st
    simp only [Orchestrator.processScenarios]
    split
    · exact ⟨hps.2.2.1, hps.2.2.2.1⟩
    · obtain ⟨hs, l2, hl2⟩ := ih (idx + 1)
        (Orchestrator.processScenario cfg ag idx name st).1
      refine ⟨?_, ?_⟩
      · rcases hs with hs | hs | hs
        · rw [hs]
          exact hps.2.2.1
        · exact Or.inr (Or.inl hs)
        · exact Or.inr (Or.inr hs)
      · obtain ⟨l1, hl1⟩ := hps.2.2.2.1
        exact ⟨l1 ++ l2, by rw [hl2, hl1, List.append_assoc]⟩

/-- Helper: the batch never produces a passed status on its own. -/
theorem processScenarios_ne_passed (cfg : Orchestrator.OrchestratorConfig)
    (ag : Orchestrator.Agents) (names : List Str) (idx : Nat)
    (st : OrchestratorState) (hne : st.status ≠ .passed) :
    (Orchestrator.processScenarios cfg ag idx names st).status ≠ .passed := by
  rcases (processScenarios_spec cfg ag names idx st).1 with h | h | h <;>
    rw [h] <;> simp_all

/-- Helper: with stopOnFirstFailure clear, a max_retries status survives
the rest of the batch. -/
theorem processScenarios_preserve_mr (cfg : Orchestrator.OrchestratorConfig)
    (ag : Orchestrator.Agents) (hstop : cfg.stopOnFirstFailure = false) :
    ∀ (names : List Str) (idx : Nat) (st : OrchestratorState),
      st.status = .max_retries →
      (Orchestrator.processScenarios cfg ag idx names st).status = .max_retries := by
  intro names
  induction names with
  | nil =>
    intro idx st h
    simpa [Orchestrator.processScenarios] using h
  | cons name rest ih =>
    intro idx st h
    have hst1 : (Orchestrator.processScenario cfg ag idx name st).1.status =
        .max_retries := by
      by_cases hp : (Orchestrator.processScenario cfg ag idx name st).2 = true
      · rw [(processScenario_spec cfg ag idx name st).2.1 hp]
        exact h
      · exact processScenario_not_passed_mr cfg ag idx name st hstop
          (by simpa using hp)
    simp only [Orchestrator.processScenarios]
    rw [hstop]
    simp only [Bool.and_false, Bool.false_eq_true, if_false]
    exact ih (idx + 1) _ hst1

/-- Helper: with stopOnFirstFailure clear the batch never breaks, so it
splits along list append. -/
theorem processScenarios_append (cfg : Orchestrator.OrchestratorConfig)
    (ag : Orchestrator.Agents) (hstop : cfg.stopOnFirstFailure = false) :
    ∀ (l1 l2 : List Str) (idx : Nat) (st : OrchestratorState),
      Orchestrator.processScenarios cfg ag idx (l1 ++ l2) st =
        Orchestrator.processScenarios cfg ag (idx + l1.length) l2
          (Orchestrator.processScenarios cfg ag idx l1 st) := by
  intro l1
  induction l1 with
  | nil =>
    intro l2 idx st
    simp [Orchestrator.processScenarios]
  | cons name rest ih =>
    intro l2 idx st
    simp only [List.cons_append, Orchestrator.processScenarios, List.append_eq,
      List.length_cons]
    rw [hstop]
    simp only [Bool.and_false, Bool.false_eq_true, if_false]
    rw [ih l2 (idx + 1)]
    have harith : idx + 1 + rest.length = idx + (rest.length + 1) := by omega
    rw [harith]

/-- Helper: a single-scenario batch is exactly one scenario processing,
whether or not the break fires. -/
theorem processScenarios_singleton (cfg : Orchestrator.OrchestratorConfig)
    (ag : Orchestrator.Agents) (idx : Nat) (name : Str)
    (st : OrchestratorState) :
    Orchestrator.processScenarios cfg ag idx [name] st =
      (Orchestrator.processScenario cfg ag idx name st).1 := by
  simp only [Orchestrator.processScenarios]
  split <;> rfl

/-- Helper: the final status determination touches only the status. -/
theorem finalizeState_fields (st : OrchestratorState) :
    (Orchestrator.finalizeState st).results = st.results ∧
    (Orchestrator.finalizeState st).iteration = st.iteration ∧
    (Orchestrator.finalizeState st).fixes = st.fixes := by
  refine ⟨?_, ?_, ?_⟩ <;> unfold Orchestrator.finalizeState <;> dsimp only <;>
    split <;> first | rfl | (split <;> rfl)

/-- Helper: for a batch status that cannot be passed, the final status is
passed exactly when there is at least one result and all results passed. -/
theorem finalizeState_passed_iff (st : OrchestratorState)
    (hne : st.status ≠ .passed) :
    ((Orchestrator.finalizeState st).status = .passed ↔
      (st.results ≠ [] ∧ ∀ r ∈ st.results, r.status = .passed)) := by
  unfold Orchestrator.finalizeState
  dsimp only
  by_cases hall : (decide (st.results ≠ []) &&
      st.results.all (fun r => r.status = .passed)) = true
  · rw [if_pos hall]
    simp only [Bool.and_eq_true, decide_eq_true_eq, List.all_eq_true] at hall
    simp only [true_iff]
    exact ⟨hall.1, fun r hr => by simpa using hall.2 r hr⟩
  · rw [if_neg hall]
    simp only [Bool.and_eq_true, decide_eq_true_eq, List.all_eq_true,
      not_and, not_forall] at hall
    constructor
    · intro hp
      exfalso
      by_cases hrun : st.status = .running
      · rw [if_pos hrun] at hp
        simp at hp
      · rw [if_neg hrun] at hp
        exact hne hp
    · intro h
      exfalso
      obtain ⟨x, hx, hxs⟩ := hall h.1
      exact hxs (by simpa using h.2 x hx)

/-- Helper: a max_retries batch status with a non-passed result among the
results survives finalization. -/
theorem finalizeState_keeps_mr (st : OrchestratorState)
    (h : st.status = .max_retries)
    (hr : ∃ r ∈ st.results, r.status ≠ .passed) :
    (Orchestrator.finalizeState st).status = .max_retries := by
  obtain ⟨r, hrmem, hrs⟩ := hr
  unfold Orchestrator.finalizeState
  dsimp only
  rw [if_neg, if_neg (by rw [h]; intro hc; cases hc)]
  · exact h
  · intro hall
    simp only [Bool.and_eq_true, decide_eq_true_eq, List.all_eq_true] at hall
    exact hrs (by simpa using hall.2 r hrmem)

/-- Helper: the final status is passed, failed, or the (not running)
batch status. -/
theorem finalizeState_cases (st : OrchestratorState) :
    (Orchestrator.finalizeState st).status = .passed ∨
    (Orchestrator.finalizeState st).status = .failed ∨
    ((Orchestrator.finalizeState st).status = st.status ∧
      st.status ≠ .running) := by
  unfold Orchestrator.finalizeState
  dsimp only
  split
  · exact Or.inl rfl
  · split
    · exact Or.inr (Or.inl rfl)
    · exact Or.inr (Or.inr ⟨rfl, by assumption⟩)

/-- Helper: the analyze-and-fix stage keeps the results (rewrite form). -/
theorem afterAnalysis_results (cfg : Orchestrator.OrchestratorConfig)
    (ag : Orchestrator.Agents) (st : OrchestratorState) (tr : TestResult) :
    (Orchestrator.afterAnalysis cfg ag st tr).results = st.results :=
  (afterAnalysis_fields cfg ag st tr).1

/-- Helper: the analyze-and-fix stage keeps the status (rewrite form). -/
theorem afterAnalysis_status (cfg : Orchestrator.OrchestratorConfig)
    (ag : Orchestrator.Agents) (st : OrchestratorState) (tr : TestResult) :
    (Orchestrator.afterAnalysis cfg ag st tr).status = st.status :=
  (afterAnalysis_fields cfg ag st tr).2.1

/-- Helper: the final state of a non-empty orchestrator run. -/
theorem runOrchestrator_eq (cfg : Orchestrator.OrchestratorConfig)
    (ag : Orchestrator.Agents) (names : List Str) (hn : names ≠ []) :
    (Orchestrator.runOrchestrator cfg ag names).1 =
      Orchestrator.finalizeState
        (Orchestrator.processScenarios cfg ag 0 names
          { Orchestrator.initState cfg with status := .running }) := by
  simp [Orchestrator.runOrchestrator, hn]

/-- Helper (shared by C2 and C3): under sequential processing, a
processed scenario whose allowed attempts all fail drives the final
orchestrator status to max_retries. -/
theorem orch_exhausted_mr (cfg : Orchestrator.OrchestratorConfig)
    (ag : Orchestrator.Agents) (names : List Str) (i : Nat)
    (hstop : cfg.stopOnFirstFailure = false) (hmax : 1 ≤ cfg.maxIterations)
    (hi : i < names.length)
    (hfail : ∀ k, 1 ≤ k → k ≤ cfg.maxIterations →
      (ag.runTest i k).status ≠ .passed) :
    (Orchestrator.runOrchestrator cfg ag names).1.status = .max_retries := by
  have hn : names ≠ [] := by
    intro h
    rw [h] at hi
    simp at hi
  rw [runOrchestrator_eq cfg ag names hn]
  have hsplit : names = names.take i ++ names[i] :: names.drop (i + 1) := by
    conv_lhs => rw [← List.take_append_drop i names]
    rw [List.drop_eq_getElem_cons hi]
  have hlen : (names.take i).length = i := by
    rw [List.length_take]
    omega
  have hps : Orchestrator.processScenarios cfg ag 0 names
      { Orchestrator.initState cfg with status := .running } =
      Orchestrator.processScenarios cfg ag (i + 1) (names.drop (i + 1))
        (Orchestrator.processScenario cfg ag i (names[i])
          (Orchestrator.processScenarios cfg ag 0 (names.take i)
            { Orchestrator.initState cfg with status := .running })).1 := by
    conv_lhs => rw [hsplit]
    rw [processScenarios_append cfg ag hstop, hlen, Nat.zero_add]
    simp only [Orchestrator.processScenarios]
    rw [hstop]
    simp only [Bool.and_false, Bool.false_eq_true, if_false]
  rw [hps]
  have hnp : (Orchestrator.processScenario cfg ag i (names[i])
      (Orchestrator.processScenarios cfg ag 0 (names.take i)
        { Orchestrator.initState cfg with status := .running })).2 = false := by
    have hflag := scenarioLoop_all_fail cfg ag i cfg.maxIterations 0
      { Orchestrator.processScenarios cfg ag 0 (names.take i)
          { Orchestrator.initState cfg with status := .running } with
        currentScenario := some (names[i]) }
      (fun k h1 h2 => hfail k h1 (by omega))
    simp only [Orchestrator.processScenario]
    rw [if_neg (by simp [hflag])]
  have hmr := processScenario_not_passed_mr cfg ag i (names[i])
    (Orchestrator.processScenarios cfg ag 0 (names.take i)
      { Orchestrator.initState cfg with status := .running }) hstop hnp
  have hst2 := processScenarios_preserve_mr cfg ag hstop
    (names.drop (i + 1)) (i + 1) _ hmr
  have hmem1 : ag.runTest i 1 ∈
      (Orchestrator.processScenario cfg ag i (names[i])
        (Orchestrator.processScenarios cfg ag 0 (names.take i)
          { Orchestrator.initState cfg with status := .running })).1.results :=
    (processScenario_spec cfg ag i (names[i]) _).2.2.2.2 hmax
  have hmem2 : ag.runTest i 1 ∈
      (Orchestrator.processScenarios cfg ag (i + 1) (names.drop (i + 1))
        (Orchestrator.processScenario cfg ag i (names[i])
          (Orchestrator.processScenarios cfg ag 0 (names.take i)
            { Orchestrator.initState cfg with status := .running })).1).results := by
    obtain ⟨l, hl⟩ := (processScenarios_spec cfg ag (names.drop (i + 1))
      (i + 1) _).2
    rw [hl]
    exact List.mem_append.mpr (Or.inl hmem1)
  exact finalizeState_keeps_mr _ hst2
    ⟨ag.runTest i 1, hmem2, hfail 1 (le_refl 1) hmax⟩

/-- Claim C2, counterexample: one scenario, two allowed iterations; its
first attempt fails and its second passes, so the scenario ends in
passed, yet the final orchestrator status is failed (not passed),
because the final check requires every accumulated attempt to have
passed. -/
theorem C2_counterexample :
    (Orchestrator.processScenario c2cfg c2agents 0 ("a".data) c2start).2 = true ∧
    (c2agents.runTest 0 2).status = .passed ∧
    (Orchestrator.runOrchestrator c2cfg c2agents ["a".data]).1.results.length = 2 ∧
    (Orchestrator.runOrchestrator c2cfg c2agents ["a".data]).1.status = .failed ∧
    (Orchestrator.runOrchestrator c2cfg c2agents ["a".data]).1.status ≠ .passed := by
  refine ⟨by decide, by decide, by decide, by decide, by decide⟩

/-- Claim C2, amended: the final status is passed exactly when the run
accumulated at least one result and every accumulated attempt passed (a
scenario that failed an earlier attempt and passed later therefore
leaves a non-passed final status); a processed scenario that exhausts
its bound forces max_retries; and a non-empty run always terminates in
passed, failed or max_retries. -/
theorem C2_final_status_characterization (cfg : Orchestrator.OrchestratorConfig)
    (ag : Orchestrator.Agents) (names : List Str) :
    ((Orchestrator.runOrchestrator cfg ag names).1.status = .passed ↔
      ((Orchestrator.runOrchestrator cfg ag names).1.results ≠ [] ∧
        ∀ r ∈ (Orchestrator.runOrchestrator cfg ag names).1.results,
          r.status = .passed)) ∧
    (∀ i : Nat, cfg.stopOnFirstFailure = false → 1 ≤ cfg.maxIterations →
      i < names.length →
      (∀ k, 1 ≤ k → k ≤ cfg.maxIterations →
        (ag.runTest i k).status ≠ .passed) →
      (Orchestrator.runOrchestrator cfg ag names).1.status = .max_retries) ∧
    (names ≠ [] →
      (Orchestrator.runOrchestrator cfg ag names).1.status = .passed ∨
      (Orchestrator.runOrchestrator cfg ag names).1.status = .failed ∨
      (Orchestrator.runOrchestrator cfg ag names).1.status = .max_retries) := by
  refine ⟨?_, ?_, ?_⟩
  · by_cases hn : names = []
    · subst hn
      simp [Orchestrator.runOrchestrator, Orchestrator.initState]
    · rw [runOrchestrator_eq cfg ag names hn]
      have hne : (Orchestrator.processScenarios cfg ag 0 names
          { Orchestrator.initState cfg with status := .running }).status ≠
            .passed :=
        processScenarios_ne_passed cfg ag names 0 _ (by intro h; simp at h)
      have hiff := finalizeState_passed_iff _ hne
      rw [(finalizeState_fields _).1]
      exact hiff
  · intro i hstop hmax hi hfail
    exact orch_exhausted_mr cfg ag names i hstop hmax hi hfail
  · intro hn
    rw [runOrchestrator_eq cfg ag names hn]
    rcases finalizeState_cases (Orchestrator.processScenarios cfg ag 0 names
      { Orchestrator.initState cfg with status := .running }) with h | h | h
    · exact Or.inl h
    · exact Or.inr (Or.inl h)
    · rcases (processScenarios_spec cfg ag names 0
        { Orchestrator.initState cfg with status := .running }).1 with
        hs | hs | hs
      · exact absurd hs h.2
      · rw [h.1]
        exact Or.inr (Or.inr hs)
      · rw [h.1]
        exact Or.inr (Or.inl hs)

/-- Claim C3: with a positive iteration bound, one scenario's processing
appends at most maxIterations results (run attempts); a scenario that
consumed the full bound with every attempt failing leaves the status
max_retries; under sequential processing such a scenario forces the
whole run to terminate with status max_retries; and max_retries is a
distinct status from failed and from passed. -/
theorem C3_retry_bound (cfg : Orchestrator.OrchestratorConfig)
    (ag : Orchestrator.Agents) (names : List Str) (i : Nat) (name : Str)
    (st : OrchestratorState) (hmax : 1 ≤ cfg.maxIterations) :
    ((Orchestrator.processScenario cfg ag i name st).1.results.length ≤
      st.results.length + cfg.maxIterations) ∧
    ((∀ k, 1 ≤ k → k ≤ cfg.maxIterations →
        (ag.runTest i k).status ≠ .passed) →
      (Orchestrator.processScenario cfg ag i name st).1.results.length =
        st.results.length + cfg.maxIterations →
      (Orchestrator.processScenario cfg ag i name st).1.status = .max_retries) ∧
    (cfg.stopOnFirstFailure = false → i < names.length →
      (∀ k, 1 ≤ k → k ≤ cfg.maxIterations →
        (ag.runTest i k).status ≠ .passed) →
      (Orchestrator.runOrchestrator cfg ag names).1.status = .max_retries) ∧
    (OrchestratorStatus.max_retries ≠ .failed ∧
      OrchestratorStatus.max_retries ≠ .passed) := by
  refine ⟨(processScenario_spec cfg ag i name st).1, ?_, ?_, by decide, by decide⟩
  · intro hfail hlen
    exact (processScenario_exhaust cfg ag i name st hfail hlen).1
  · intro hstop hi hfail
    exact orch_exhausted_mr cfg ag names i hstop hmax hi hfail

/-- Witness for C3 at two allowed iterations, both failing: the scenario
consumed at most the bound and both the scenario status and the run
status are max_retries. -/
theorem C3_retry_bound_witness :
    ((Orchestrator.processScenario c3cfg c3agents 0 ("a".data)
        (Orchestrator.initState c3cfg)).1.results.length ≤
      (Orchestrator.initState c3cfg).results.length + c3cfg.maxIterations) ∧
    (Orchestrator.processScenario c3cfg c3agents 0 ("a".data)
        (Orchestrator.initState c3cfg)).1.status = .max_retries ∧
    (Orchestrator.runOrchestrator c3cfg c3agents ["a".data]).1.status =
      .max_retries :=
  have h := C3_retry_bound c3cfg c3agents ["a".data] 0 ("a".data)
    (Orchestrator.initState c3cfg) (by decide)
  ⟨h.1,
   h.2.1 (fun k h1 h2 hp => by simp [c3agents, mkAgents, c3run, mkResult] at hp)
     (by decide),
   h.2.2.1 rfl (by decide)
     (fun k h1 h2 hp => by simp [c3agents, mkAgents, c3run, mkResult] at hp)⟩

/-- Helper for C5: under stopOnFirstFailure with retries remaining, a
failed first attempt ends the scenario loop at iteration 1 after the
analyze-and-fix stage, with exactly that one attempt recorded. -/
theorem scenarioLoop_stop_first_fail (cfg : Orchestrator.OrchestratorConfig)
    (ag : Orchestrator.Agents) (i : Nat) (st : OrchestratorState)
    (hstop : cfg.stopOnFirstFailure = true) (hmax : 2 ≤ cfg.maxIterations)
    (hfail1 : (ag.runTest i 1).status ≠ .passed) :
    (Orchestrator.scenarioLoop cfg ag i cfg.maxIterations 0 st).2.1 = false ∧
    (Orchestrator.scenarioLoop cfg ag i cfg.maxIterations 0 st).2.2 = 1 ∧
    (Orchestrator.scenarioLoop cfg ag i cfg.maxIterations 0 st).1.results =
      st.results ++ [ag.runTest i 1] ∧
    (Orchestrator.scenarioLoop cfg ag i cfg.maxIterations 0 st).1.status =
      st.status := by
  obtain ⟨f, hf⟩ : ∃ f, cfg.maxIterations = f + 2 :=
    ⟨cfg.maxIterations - 2, by omega⟩
  rw [hf]
  simp only [Orchestrator.scenarioLoop, Nat.zero_add]
  rw [if_neg hfail1, if_neg (by omega : ¬(cfg.maxIterations ≤ 1)), if_pos hstop]
  refine ⟨rfl, rfl, ?_, ?_⟩
  · rw [afterAnalysis_results]
  · rw [afterAnalysis_status]

/-- Claim C5, counterexample: stopOnFirstFailure with three allowed
iterations and two scenarios; scenario 0 fails its first attempt but
would pass its second, and scenario 1 would pass. The orchestrator
stops the whole batch after that single non-final failed attempt: only
one result is recorded, the final status is failed, and the passing
retry never runs. -/
theorem C5_counterexample :
    (Orchestrator.runOrchestrator c5cfg c5agents
      ["a".data, "b".data]).1.results.length = 1 ∧
    (Orchestrator.runOrchestrator c5cfg c5agents
      ["a".data, "b".data]).1.status = .failed ∧
    (c5agents.runTest 0 2).status = .passed ∧
    (c5agents.runTest 1 1).status = .passed ∧
    c5cfg.maxIterations = 3 := by
  refine ⟨by decide, by decide, by decide, by decide, by decide⟩

/-- Claim C5, amended: with stopOnFirstFailure set and retries still
remaining, a scenario whose first attempt fails is abandoned right
there — exactly one attempt is recorded, the scenario is not passed,
its terminal status is failed (not max_retries), and the batch is
short-circuited with the remaining scenarios unprocessed. -/
theorem C5_stop_after_first_failed_attempt
    (cfg : Orchestrator.OrchestratorConfig) (ag : Orchestrator.Agents)
    (i : Nat) (name : Str) (rest : List Str) (st : OrchestratorState)
    (hstop : cfg.stopOnFirstFailure = true) (hmax : 2 ≤ cfg.maxIterations)
    (hfail1 : (ag.runTest i 1).status ≠ .passed) :
    (Orchestrator.processScenario cfg ag i name st).1.results.length =
      st.results.length + 1 ∧
    (Orchestrator.processScenario cfg ag i name st).2 = false ∧
    (Orchestrator.processScenario cfg ag i name st).1.status = .failed ∧
    Orchestrator.processScenarios cfg ag i (name :: rest) st =
      (Orchestrator.processScenario cfg ag i name st).1 := by
  have key := scenarioLoop_stop_first_fail cfg ag i
    { st with currentScenario := some name } hstop hmax hfail1
  have hps2 : (Orchestrator.processScenario cfg ag i name st).2 = false := by
    simp only [Orchestrator.processScenario]
    rw [if_neg (by simp [key.1])]
  refine ⟨?_, hps2, ?_, ?_⟩
  · simp only [Orchestrator.processScenario]
    rw [if_neg (by simp [key.1])]
    dsimp only
    rw [key.2.2.1]
    simp
  · simp only [Orchestrator.processScenario]
    rw [if_neg (by simp [key.1])]
    dsimp only
    rw [key.2.1, if_neg (by omega : ¬(cfg.maxIterations ≤ 1))]
  · simp only [Orchestrator.processScenarios]
    rw [if_pos (by simp [hps2, hstop])]

/-- Witness for C5's amended theorem at the concrete configuration of
the counterexample. -/
theorem C5_stop_after_first_failed_attempt_witness :
    (Orchestrator.processScenario c5cfg c5agents 0 ("a".data)
        (Orchestrator.initState c5cfg)).1.results.length =
      (Orchestrator.initState c5cfg).results.length + 1 ∧
    (Orchestrator.processScenario c5cfg c5agents 0 ("a".data)
        (Orchestrator.initState c5cfg)).2 = false ∧
    (Orchestrator.processScenario c5cfg c5agents 0 ("a".data)
        (Orchestrator.initState c5cfg)).1.status = .failed ∧
    Orchestrator.processScenarios c5cfg c5agents 0
        ("a".data :: ["b".data]) (Orchestrator.initState c5cfg) =
      (Orchestrator.processScenario c5cfg c5agents 0 ("a".data)
        (Orchestrator.initState c5cfg)).1 :=
  C5_stop_after_first_failed_attempt c5cfg c5agents 0 ("a".data) ["b".data]
    (Orchestrator.initState c5cfg) rfl (by decide) (by decide)

/-- Claim C9, counterexample: two scenarios — the first needs two
attempts (one fix applied), the second passes at once. Three run
attempts are consumed in total, one fix is recorded, yet the final
report's iterations field is 1: it copies the last scenario's iteration
counter instead of the total attempt count. -/
theorem C9_counterexample :
    (ReportGenerator.generateFinalReport
      (Orchestrator.runOrchestrator c9cfg c9agents
        ["a.yaml".data, "b.yaml".data]).1).summary.iterations = 1 ∧
    (Orchestrator.runOrchestrator c9cfg c9agents
      ["a.yaml".data, "b.yaml".data]).1.results.length = 3 ∧
    (ReportGenerator.generateFinalReport
      (Orchestrator.runOrchestrator c9cfg c9agents
        ["a.yaml".data, "b.yaml".data]).1).summary.iterations ≠
      (Orchestrator.runOrchestrator c9cfg c9agents
        ["a.yaml".data, "b.yaml".data]).1.results.length ∧
    (ReportGenerator.generateFinalReport
      (Orchestrator.runOrchestrator c9cfg c9agents
        ["a.yaml".data, "b.yaml".data]).1).summary.fixesApplied = 1 ∧
    (Orchestrator.runOrchestrator c9cfg c9agents
      ["a.yaml".data, "b.yaml".data]).1.fixes.length = 1 := by
  refine ⟨by decide, by decide, by decide, by decide, by decide⟩

/-- Helper for C9: starting from a state with no results and a zero
iteration counter, one scenario's processing leaves the iteration field
equal to its own number of recorded attempts. -/
theorem processScenario_iter_of_empty (cfg : Orchestrator.OrchestratorConfig)
    (ag : Orchestrator.Agents) (i : Nat) (name : Str) (st : OrchestratorState)
    (h0 : st.results = []) (h1 : st.iteration = 0) :
    (Orchestrator.processScenario cfg ag i name st).1.iteration =
      (Orchestrator.processScenario cfg ag i name st).1.results.length := by
  obtain ⟨hle1, hle2, hlen, hstat, hiter, l, hl⟩ :=
    scenarioLoop_spec cfg ag i cfg.maxIterations 0
      { st with currentScenario := some name }
  have hstart : ({ st with currentScenario := some name } :
      OrchestratorState).results.length = 0 := by
    rw [show ({ st with currentScenario := some name } :
      OrchestratorState).results = st.results from rfl, h0]
    rfl
  have hcore : (Orchestrator.scenarioLoop cfg ag i cfg.maxIterations 0
      { st with currentScenario := some name }).1.iteration =
      (Orchestrator.scenarioLoop cfg ag i cfg.maxIterations 0
        { st with currentScenario := some name }).1.results.length := by
    rw [hiter]
    split
    · next hz =>
        rw [show ({ st with currentScenario := some name } :
          OrchestratorState).iteration = st.iteration from rfl]
        omega
    · next hz => omega
  simp only [Orchestrator.processScenario]
  split
  · exact hcore
  · dsimp only
    exact hcore

/-- Claim C9, amended: the report summary's iterations field equals the
final OrchestratorState iteration counter — which for a single-scenario
run is that scenario's attempt count (its number of results), but not
in general the total attempts across scenarios — while fixesApplied
does equal the total number of accumulated Fix records. -/
theorem C9_summary_counts (cfg : Orchestrator.OrchestratorConfig)
    (ag : Orchestrator.Agents) (names : List Str) :
    (ReportGenerator.generateFinalReport
        (Orchestrator.runOrchestrator cfg ag names).1).summary.iterations =
      (Orchestrator.runOrchestrator cfg ag names).1.iteration ∧
    (ReportGenerator.generateFinalReport
        (Orchestrator.runOrchestrator cfg ag names).1).summary.fixesApplied =
      (Orchestrator.runOrchestrator cfg ag names).1.fixes.length ∧
    (∀ name, names = [name] →
      (Orchestrator.runOrchestrator cfg ag names).1.iteration =
        (Orchestrator.runOrchestrator cfg ag names).1.results.length) := by
  refine ⟨rfl, rfl, ?_⟩
  intro name hn
  subst hn
  rw [runOrchestrator_eq cfg ag [name] (by simp)]
  rw [(finalizeState_fields _).1, (finalizeState_fields _).2.1]
  rw [processScenarios_singleton]
  exact processScenario_iter_of_empty cfg ag 0 name _ rfl rfl

end GymTracker
